import Mathlib

/-!
Verification of the claude-cage PTC core (src/ptc) against its
natural-language specification.

Shallow embedding conventions:
* Python strings are lists of Unicode code points (`PyStr := List Nat`);
  `pys` injects a Lean string literal.  Python's `str.lower`/`str.upper`
  are embedded over the ASCII and Latin-1 fragment of Unicode full case
  mapping (including the one-to-many `ß → SS`); code points outside that
  fragment pass through unchanged.  `str.strip()`'s character class is
  the full Unicode whitespace set Python strips.
* Python dicts keyed by strings are association lists with Python's
  insert-or-overwrite semantics (`pyDictInsert`); iteration order is
  insertion order, as in CPython.
* Machine effects (wall clock, subprocesses, the filesystem, MongoDB
  writes) are supplied as explicit environment data; fire-and-forget
  writes (store_event / store_artifact / Popen logging) return nothing
  to the caller and are dropped from the embedding.
* Recursions that Python performs over an id-indexed node dictionary
  (which could diverge on a cyclic document) take an explicit fuel
  argument; theorems that need full exploration carry a fuel-adequacy
  hypothesis.
-/

/-- Python string as a list of Unicode code points. -/
def PyStr : Type := List Nat

instance : DecidableEq PyStr := by unfold PyStr; infer_instance
instance : BEq PyStr := by unfold PyStr; infer_instance
instance : LawfulBEq PyStr := by unfold PyStr; infer_instance
instance : Append PyStr := by unfold PyStr; infer_instance
instance : Membership Nat PyStr := by unfold PyStr; infer_instance
instance : EmptyCollection PyStr := ⟨([] : List Nat)⟩

/-- Inject a Lean string literal as a Python string (code points). -/
def pys (s : String) : PyStr := s.toList.map Char.toNat

/-- Python truthiness of a string: nonempty. -/
def pyTruthy (s : PyStr) : Bool := !(List.isEmpty s)

/-- Python truthiness of an optional string (`None` and `""` are falsy). -/
def pyTruthyOpt : Option PyStr → Bool
  | none => false
  | some s => pyTruthy s

/-- Is `needle` a prefix of `haystack`? -/
def pyPrefix : List Nat → List Nat → Bool
  | [], _ => true
  | _ :: _, [] => false
  | a :: as, b :: bs => a = b && pyPrefix as bs

/-- Python `needle in haystack` on strings: contiguous substring test. -/
def pyIn (needle : PyStr) : PyStr → Bool
  | [] => List.isEmpty needle
  | c :: rest => pyPrefix needle (c :: rest) || pyIn needle rest

/-- Lower-casing of one code point (Python `str.lower`, ASCII/Latin-1
fragment: `A`-`Z`, `À`-`Þ` except `×`, `Ÿ` (U+0178) → `ÿ`, `Μ` (U+039C)
→ `μ`; everything else is a fixed point — in particular `ß`, which
Python leaves unchanged on lower). -/
def pyLowerChar (c : Nat) : Nat :=
  if 65 ≤ c ∧ c ≤ 90 then c + 32
  else if (192 ≤ c ∧ c ≤ 222) ∧ c ≠ 215 then c + 32
  else if c = 376 then 255
  else if c = 924 then 956
  else c

/-- Upper-casing of one code point (Python `str.upper`, ASCII/Latin-1
fragment of Unicode full case mapping: `a`-`z`, `µ` (U+00B5) → `Μ`,
`ß` (U+00DF) → `SS` (one-to-many), `à`-`þ` except `÷`, `ÿ` → `Ÿ`
(U+0178); everything else is a fixed point). -/
def pyUpperChar (c : Nat) : List Nat :=
  if 97 ≤ c ∧ c ≤ 122 then [c - 32]
  else if c = 181 then [924]
  else if c = 223 then [83, 83]
  else if (224 ≤ c ∧ c ≤ 254) ∧ c ≠ 247 then [c - 32]
  else if c = 255 then [376]
  else [c]

/-- Python `str.lower` (ASCII/Latin-1 fragment). -/
def pyLower (s : PyStr) : PyStr := s.map pyLowerChar

/-- Python `str.upper` (ASCII/Latin-1 fragment; full case mapping, so a
code point may expand to several, as `ß → SS` does). -/
def pyUpper (s : PyStr) : PyStr := (s : List Nat).flatMap pyUpperChar

/-- The code points Python's `str.strip()` removes (the Unicode
whitespace set: tab through carriage return, the C1 separators 28-31,
space, NEL, NBSP, Ogham space, the U+2000 range, line/paragraph
separators, narrow NBSP, medium mathematical space, ideographic
space). -/
def pyIsSpace (c : Nat) : Bool :=
  (9 ≤ c ∧ c ≤ 13) || (28 ≤ c ∧ c ≤ 32) || c = 133 || c = 160 ||
  c = 5760 || (8192 ≤ c ∧ c ≤ 8202) || c = 8232 || c = 8233 ||
  c = 8239 || c = 8287 || c = 12288

/-- Python `str.strip()`: drop leading and trailing whitespace. -/
def pyStrip (s : PyStr) : PyStr :=
  ((List.dropWhile pyIsSpace s).reverse.dropWhile pyIsSpace).reverse

/-- The ASCII restriction of the upper map as a per-point function: on
code points below 128 `pyUpperChar c = [upAscii c]`. -/
def upAscii (c : Nat) : Nat := if 97 ≤ c ∧ c ≤ 122 then c - 32 else c

/-- Python dict insert: overwrite in place if the key exists, else append. -/
def pyDictInsert {β : Type} (d : List (PyStr × β)) (k : PyStr) (v : β) :
    List (PyStr × β) :=
  match d with
  | [] => [(k, v)]
  | (k', v') :: rest =>
      if k' = k then (k, v) :: rest else (k', v') :: pyDictInsert rest k v

/-- Python dict lookup (`d.get(k)`). -/
def pyDictGet {β : Type} (d : List (PyStr × β)) (k : PyStr) : Option β :=
  match d with
  | [] => none
  | (k', v') :: rest => if k' = k then some v' else pyDictGet rest k

/-- Build a Python dict from pairs in order ({n["id"]: n for n in ...}). -/
def pyDictOf {β : Type} (l : List (PyStr × β)) : List (PyStr × β) :=
  l.foldl (fun d kv => pyDictInsert d kv.1 kv.2) []

-- ── executor.py: tasks, risk scoring, the approval gate ────────

/-- A node rule `{name, condition, action}` (engine.py / tree document). -/
structure PRule where
  name : PyStr
  condition : PyStr
  action : PyStr
deriving DecidableEq

/-- Escalation metadata `{target, threshold, cascade}`. -/
structure Escalation where
  target : Option PyStr := none
  threshold : Int := 10
  cascade : List PyStr := []
deriving DecidableEq

/-- A leaf task as built by engine.decompose / engine.main. -/
structure PTask where
  node_id : PyStr
  node_name : PyStr
  scale : PyStr
  intent : PyStr
  lineage : List PyStr
  files : List PyStr
  functions : List PyStr
  rules : List PRule
  escalation : Escalation
deriving DecidableEq

/-- executor._calculate_risk: the scale→base table (`scale_risk`). -/
def scaleRisk (scale : PyStr) : Int :=
  if scale = pys "executive" then 8
  else if scale = pys "department" then 6
  else if scale = pys "captain" then 3
  else if scale = pys "module" then 2
  else if scale = pys "crate" then 2
  else 3

/-- executor._calculate_risk: `high_risk_words`. -/
def highRiskWords : List PyStr :=
  [pys "delete", pys "destroy", pys "drop", pys "force", pys "reset",
   pys "remove", pys "wipe", pys "nuke", pys "nixos-rebuild"]

/-- executor._calculate_risk: `medium_risk_words`. -/
def mediumRiskWords : List PyStr :=
  [pys "deploy", pys "push", pys "release", pys "migrate", pys "update",
   pys "modify", pys "nix build", pys "rebuild tier"]

/-- executor._calculate_risk: `sensitive_paths`. -/
def sensitivePaths : List PyStr :=
  [pys "security/", pys "docker/", pys ".env", pys "credentials", pys "config/"]

/-- executor._calculate_risk (executor.py:1655-1692), line by line:
base risk from scale, then `if any(high)` / `elif any(medium)` on the
lower-cased intent, `+1` on a sensitive file path, `-1` when more than
three rules apply, clamped by `max(1, min(10, risk))`. -/
def calculateRisk (task : PTask) : Int :=
  let intent := pyLower task.intent
  let base := scaleRisk task.scale
  let intentAdj : Int :=
    if highRiskWords.any (fun w => pyIn w intent) then 3
    else if mediumRiskWords.any (fun w => pyIn w intent) then 1
    else 0
  let fileAdj : Int :=
    if task.files.any (fun f => sensitivePaths.any (fun s => pyIn s f)) then 1
    else 0
  let ruleAdj : Int := if 3 < task.rules.length then -1 else 0
  max 1 (min 10 (base + intentAdj + fileAdj + ruleAdj))

/-- The approval decision returned by executor._check_approval.
`escalated_to` is `none` exactly when the Python dict lacks the key. -/
structure Approval where
  risk : Int
  blocked : Bool
  reason : PyStr
  escalated_to : Option PyStr := none
  level : PyStr
deriving DecidableEq

/-- Decimal rendering of a nonnegative integer (for f-string embedding). -/
def natDigits (n : Nat) : PyStr :=
  (Nat.toDigits 10 n).map Char.toNat

/-- Render an `Int` the way Python's f-string renders it. -/
def intStr (i : Int) : PyStr :=
  if i < 0 then pys "-" ++ natDigits i.natAbs else natDigits i.natAbs

/-- executor._check_approval (executor.py:1585-1652).  The MongoDB
approval log is fire-and-forget and dropped here. -/
def checkApproval (task : PTask) : Approval :=
  let threshold := task.escalation.threshold
  let target := task.escalation.target
  let risk := calculateRisk task
  if 9 ≤ risk then
    { risk := risk, blocked := true
      reason := pys "Risk " ++ intStr risk ++ pys " requires human approval"
      escalated_to := some (pys "root:human"), level := pys "human" }
  else if 7 ≤ risk then
    { risk := risk, blocked := true
      reason := pys "Risk " ++ intStr risk ++ pys " requires CTO approval (threshold: "
        ++ intStr threshold ++ pys ")"
      escalated_to := some (if pyTruthyOpt target then target.getD (pys "exec:cto")
                            else pys "exec:cto")
      level := pys "cto" }
  else if 4 ≤ risk then
    { risk := risk, blocked := false
      reason := pys "Risk " ++ intStr risk ++ pys " — logged, proceeding (director-level)"
      level := pys "director" }
  else
    { risk := risk, blocked := false
      reason := pys "Auto-approved"
      level := pys "captain" }

-- ── engine.py: tree model, routing, decomposition ──────────────

/-- The `metadata.tier` field may be an int or a list of ints
(engine._sort_tasks_by_tier handles both). -/
inductive TierMeta where
  | int (i : Int)
  | list (l : List Int)
deriving DecidableEq

/-- A tree node as read from the tree document.  The metadata fields the
core consults (`files`, `functions`, `crates_owned`, `tier`) are lifted
to fields; free-form display-only metadata is not modelled. -/
structure PNode where
  name : PyStr
  scale : PyStr
  parent : Option PyStr := none
  children : List PyStr := []
  rules : List PRule := []
  escalation : Escalation := {}
  files : List PyStr := []
  functions : List PyStr := []
  crates_owned : List PyStr := []
  tier : Option TierMeta := none
deriving DecidableEq

/-- Nodes indexed by id, as built by `load_tree` ({n["id"]: n ...}). -/
def NodeDict : Type := List (PyStr × PNode)

instance : DecidableEq NodeDict := by unfold NodeDict; infer_instance
instance : Membership (PyStr × PNode) NodeDict := by unfold NodeDict; infer_instance

/-- A parsed tree document: node list (document order), `_meta.title`,
`coordination.phases`. -/
structure TreeDoc where
  nodes : List (PyStr × PNode)
  title : Option PyStr := none
  phases : List PyStr := []

/-- engine.load_tree (engine.py:29-36): index nodes by id and return the
`_meta` / `coordination` sections.  No validation of any kind is
performed; the function is total on parsed documents. -/
def loadTree (doc : TreeDoc) : NodeDict × Option PyStr × List PyStr :=
  (pyDictOf doc.nodes, doc.title, doc.phases)

/-- engine.find_root: first node (dict iteration order) whose `parent`
key is `None`; `None` if there is no such node. -/
def findRoot (nodes : NodeDict) : Option PyStr :=
  match nodes with
  | [] => none
  | (nid, node) :: rest => if node.parent.isNone then some nid else findRoot rest

/-- engine.get_lineage's `while current:` loop, with fuel for the walk up
the parent chain (Python would spin forever on a parent cycle). -/
def getLineageAux (fuel : Nat) (nodes : NodeDict) : Option PyStr → List PyStr
  | none => []
  | some cur =>
    match fuel with
    | 0 => []
    | fuel + 1 =>
      if pyTruthy cur then
        cur :: getLineageAux fuel nodes
          (match pyDictGet nodes cur with
           | none => none
           | some n => n.parent)
      else []

/-- engine.get_lineage: path from root to the node. -/
def getLineage (fuel : Nat) (nodes : NodeDict) (nid : PyStr) : List PyStr :=
  (getLineageAux fuel nodes (some nid)).reverse

/-- Whitespace split, accumulator form (Python `str.split()`). -/
def pySplitWsGo : List Nat → List Nat → List PyStr
  | [], acc => if acc.isEmpty then [] else [acc.reverse]
  | c :: rest, acc =>
    if pyIsSpace c then
      (if acc.isEmpty then pySplitWsGo rest [] else acc.reverse :: pySplitWsGo rest [])
    else pySplitWsGo rest (c :: acc)

/-- Python `str.split()`: split on whitespace runs, no empty pieces. -/
def pySplitWs (s : PyStr) : List PyStr := pySplitWsGo s []

/-- Python `" ".join(xs)`. -/
def pyJoinSp (xs : List PyStr) : PyStr :=
  List.intercalate (pys " ") xs

/-- Stable insertion of `x` after the existing elements `y` with
`le y x` (used to embed Python's stable `sorted`). -/
def insertLe {α : Type} (le : α → α → Bool) (x : α) : List α → List α
  | [] => [x]
  | y :: ys => if le y x then y :: insertLe le x ys else x :: y :: ys

/-- Stable sort by a total preorder `le` — processes elements left to
right inserting after equals, which coincides with Python's stable
`sorted` (kernel-reducible, unlike mergeSort). -/
def insSort {α : Type} (le : α → α → Bool) (l : List α) : List α :=
  l.foldl (fun acc x => insertLe le x acc) []

/-- Lexicographic code-point order on Python strings (`<` on str). -/
def strLtB : List Nat → List Nat → Bool
  | [], [] => false
  | [], _ :: _ => true
  | _ :: _, [] => false
  | a :: as, b :: bs => if a < b then true else if b < a then false else strLtB as bs

/-- One scored TRIAGE match `(score, nid, node)`.  Scores are stored
doubled so the leaf tiebreaker `+0.5` stays integral: `score2 = 2 ×
(matching words) + (1 if leaf and score > 0)`. -/
structure Match where
  score2 : Nat
  nid : PyStr
  node : PNode

/-- The searchable text of engine.route_intent:
`" ".join([name, nid, join(crates_owned), join(files), join(functions)]).lower()`. -/
def nodeSearchText (nid : PyStr) (node : PNode) : PyStr :=
  pyLower (pyJoinSp [node.name, nid, pyJoinSp node.crates_owned,
                     pyJoinSp node.files, pyJoinSp node.functions])

/-- engine.route_intent (engine.py:82-109): score nodes by token
overlap; boost leaves; keep positives sorted by `(-score, nid)`. -/
def routeIntent (nodes : NodeDict) (intent : PyStr) : List Match :=
  let words := pySplitWs (pyLower intent)
  let scored := nodes.filterMap (fun kv =>
    let (nid, node) := kv
    let text := nodeSearchText nid node
    let base := words.countP (fun w => pyIn w text)
    let score2 := 2 * base + (if node.children.isEmpty && 0 < base then 1 else 0)
    if 0 < base then some { score2 := score2, nid := nid, node := node } else none)
  insSort (fun a b =>
    if a.score2 = b.score2 then !strLtB b.nid a.nid else b.score2 < a.score2)
    scored

/-- Build the leaf task dict of engine._walk_down. -/
def mkLeafTask (fuel : Nat) (nodes : NodeDict) (nid : PyStr) (node : PNode)
    (intent : PyStr) : PTask :=
  { node_id := nid, node_name := node.name, scale := node.scale,
    intent := intent, lineage := getLineage fuel nodes nid,
    files := node.files, functions := node.functions,
    rules := node.rules, escalation := node.escalation }

/-- engine._walk_down: DFS from a node collecting leaf tasks, with fuel
for the recursion over the (possibly cyclic) children graph. -/
def walkDown (fuel : Nat) (nodes : NodeDict) (nid : PyStr) (intent : PyStr) :
    List PTask :=
  match fuel with
  | 0 => []
  | fuel + 1 =>
    match pyDictGet nodes nid with
    | none => []
    | some n =>
      if n.children.isEmpty then
        [mkLeafTask (fuel + 1) nodes nid n intent]
      else
        n.children.flatMap (fun c => walkDown fuel nodes c intent)

/-- Deduplicate tasks by `node_id`, keeping the first occurrence. -/
def dedupTasks (ts : List PTask) : List PTask :=
  (ts.foldl (fun (acc : List PTask × List PyStr) t =>
    if t.node_id ∈ acc.2 then acc else (acc.1 ++ [t], acc.2 ++ [t.node_id]))
    ([], [])).1

/-- The fan-out loop of engine.decompose (seen-subtree accumulation). -/
def decomposeFanOut (fuel : Nat) (nodes : NodeDict) (intent : PyStr) :
    List Match → List PyStr → List PTask → List PTask
  | [], _, tasks => tasks
  | m :: rest, seen, tasks =>
    -- Skip root/executive — too broad (executive with a parent only)
    if m.node.scale = pys "executive" && m.node.parent.isSome then
      decomposeFanOut fuel nodes intent rest seen tasks
    else if m.node.children.isEmpty then
      if m.nid ∈ seen then decomposeFanOut fuel nodes intent rest seen tasks
      else decomposeFanOut fuel nodes intent rest (seen ++ [m.nid])
        (tasks ++ walkDown fuel nodes m.nid intent)
    else
      if m.nid ∈ seen then decomposeFanOut fuel nodes intent rest seen tasks
      else if m.node.children.any (· ∈ seen) then
        decomposeFanOut fuel nodes intent rest seen tasks
      else decomposeFanOut fuel nodes intent rest (seen ++ [m.nid])
        (tasks ++ walkDown fuel nodes m.nid intent)

/-- engine.decompose (engine.py:115-165): direct targeting or fan-out,
then deduplication by node id. -/
def decompose (fuel : Nat) (nodes : NodeDict) (intent : PyStr)
    (targetId : Option PyStr) : List PTask :=
  let tasks :=
    if pyTruthyOpt targetId then
      walkDown fuel nodes (targetId.getD ∅) intent
    else
      match routeIntent nodes intent with
      | [] => []
      | ms => decomposeFanOut fuel nodes intent ms [] []
  dedupTasks tasks

-- ── engine.py: results and bottom-up aggregation ───────────────

/-- Structured `output` payloads a result can carry.  `ext` is the
opaque output of a live `executor.execute` call (the engine stores it
verbatim and never inspects it). -/
inductive Out where
  | plan (plan : PyStr) (files functions rulesApplied : List PyStr)
  | blockedOut (reason : PyStr) (risk : Int) (escalatedTo : Option PyStr)
  | ext (v : PyStr)
deriving DecidableEq

/-- One leaf result (engine.execute_leaf / the blocked synthesis). -/
structure ResultR where
  node_id : PyStr
  node_name : PyStr
  scale : PyStr
  intent : PyStr
  lineage : List PyStr
  status : PyStr
  started_at : Option PyStr := none
  completed_at : Option PyStr := none
  output : Option Out := none
  artifacts : List PyStr := []
  error : Option PyStr := none
  escalated_to : Option PyStr := none
  escalation_reason : Option PyStr := none
deriving DecidableEq

/-- The recursive aggregation value: a leaf's own result, or a branch
roll-up dict (engine.aggregate). -/
inductive Agg where
  | leaf (r : ResultR)
  | branch (node_id node_name scale status : PyStr) (lineage : List PyStr)
      (childrenResults : List Agg) (childrenCount completedCnt failedCnt : Nat)
      (blockedFlag escalatedFlag : Bool) (escalationTarget : Option PyStr)

/-- `r.get("status")` on an aggregation entry (leaf dicts and branch
dicts both carry a `status` key). -/
def Agg.status : Agg → PyStr
  | .leaf r => r.status
  | .branch _ _ _ s _ _ _ _ _ _ _ _ => s

/-- The base status combination of engine.aggregate (engine.py:319-326),
before the block/escalate overrides.  Only called on a nonempty list. -/
def combineStatuses (statuses : List PyStr) : PyStr :=
  if statuses.all (· = pys "completed") then pys "completed"
  else if statuses.any (· = pys "failed") then
    (if statuses.any (· = pys "completed") then pys "partial" else pys "failed")
  else pys "in_progress"

/-- The branch dict built from a node and its child aggregates
(engine.py:302-347): rule scan, status combination, overrides,
counters. -/
def mkBranchAgg (fuel : Nat) (nodes : NodeDict) (nid : PyStr) (node : PNode)
    (crs : List Agg) : Agg :=
  let anyFailed := crs.any (fun r => r.status = pys "failed")
  let blocked := node.rules.any (fun r => r.action = pys "block") && anyFailed
  let escalated := node.rules.any (fun r => r.action = pys "escalate") && anyFailed
  let statuses := crs.map Agg.status
  let base := combineStatuses statuses
  let aggStatus := if escalated then pys "escalated"
                   else if blocked then pys "blocked" else base
  .branch nid node.name node.scale aggStatus (getLineage fuel nodes nid) crs
    crs.length
    (statuses.countP (· = pys "completed"))
    (statuses.countP (· = pys "failed"))
    blocked escalated
    (if escalated then node.escalation.target else none)

/-- engine.aggregate's inner `aggregate_node`: leaves return their own
result (or nothing), branches aggregate the children that produced
something.  Fuel bounds the recursion over the children graph. -/
def aggregateNode (fuel : Nat) (nodes : NodeDict)
    (resultMap : List (PyStr × ResultR)) (nid : PyStr) : Option Agg :=
  match fuel with
  | 0 => none
  | fuel + 1 =>
    match pyDictGet nodes nid with
    | none => none
    | some node =>
      if node.children.isEmpty then
        (pyDictGet resultMap nid).map .leaf
      else
        let crs := (node.children.map
          (fun c => aggregateNode fuel nodes resultMap c)).reduceOption
        if crs.isEmpty then none
        else some (mkBranchAgg (fuel + 1) nodes nid node crs)

/-- Outcome of engine.aggregate: the empty-results guard, or the
(possibly `None`) roll-up at the target. -/
inductive AggOut where
  | noResults
  | out (a : Option Agg)

/-- engine.aggregate (engine.py:264-349). -/
def aggregate (fuel : Nat) (nodes : NodeDict) (results : List ResultR)
    (targetId : Option PyStr) : AggOut :=
  if results.isEmpty then .noResults
  else
    let resultMap := pyDictOf (results.map (fun r => (r.node_id, r)))
    match targetId.orElse (fun _ => findRoot nodes) with
    | none => .out none
    | some tid => .out (aggregateNode fuel nodes resultMap tid)

-- ── crate_graph.py: dependency graph, blast radius ─────────────

/-- Deduplicate keeping first occurrences (models Python set insertion;
CPython set iteration order is unspecified, so order-sensitive claims
are never proved through this). -/
def dedupList {α : Type} [DecidableEq α] (l : List α) : List α :=
  l.foldl (fun acc s => if s ∈ acc then acc else acc ++ [s]) []

/-- One crate record of crate-graph.json. -/
structure CrateInfo where
  tier : Int := 0
  deps : List PyStr := []
  node : Option PyStr := none
deriving DecidableEq

/-- Output of crate_graph.load_graph: the crate table plus the reverse
dependency index built from it. -/
structure CrateGraph where
  crates : List (PyStr × CrateInfo)
  reverse_deps : List (PyStr × List PyStr)

/-- Add `v` to the reverse-deps entry of `k` if that key exists
(`if dep in reverse_deps: reverse_deps[dep].add(name)`). -/
def rdAdd (rd : List (PyStr × List PyStr)) (k v : PyStr) :
    List (PyStr × List PyStr) :=
  rd.map (fun kv => if kv.1 = k then (kv.1, if v ∈ kv.2 then kv.2 else kv.2 ++ [v])
                    else kv)

/-- crate_graph.load_graph (crate_graph.py:21-47) applied to a parsed
crate table: build the reverse dependency index. -/
def loadGraph (crates : List (PyStr × CrateInfo)) : CrateGraph :=
  let rd0 := crates.map (fun kv => (kv.1, ([] : List PyStr)))
  let rd := crates.foldl
    (fun rd kv => kv.2.deps.foldl (fun rd dep => rdAdd rd dep kv.1) rd) rd0
  { crates := crates, reverse_deps := rd }

/-- The BFS worklist loop of crate_graph.dependents. -/
def dependentsBFS (fuel : Nat) (rev : List (PyStr × List PyStr)) :
    List PyStr → List PyStr → List PyStr
  | [], visited => visited
  | cur :: queue, visited =>
    match fuel with
    | 0 => visited
    | fuel + 1 =>
      let neigh := (pyDictGet rev cur).getD []
      let vq := neigh.foldl
        (fun (vq : List PyStr × List PyStr) dep =>
          if dep ∈ vq.1 then vq else (vq.1 ++ [dep], vq.2 ++ [dep]))
        (visited, queue)
      dependentsBFS fuel rev vq.2 vq.1

/-- crate_graph.dependents: transitive reverse dependencies. -/
def dependents (fuel : Nat) (g : CrateGraph) (crate : PyStr) : List PyStr :=
  if (pyDictGet g.reverse_deps crate).isNone then []
  else dependentsBFS fuel g.reverse_deps [crate] []

/-- crate_graph.build_order: filter to known crates, sort by
`(tier, name)`. -/
def buildOrder (g : CrateGraph) (crates : List PyStr) : List PyStr :=
  insSort
    (fun a b =>
      let ta := ((pyDictGet g.crates a).getD {}).tier
      let tb := ((pyDictGet g.crates b).getD {}).tier
      if ta = tb then !strLtB b a else ta < tb)
    (crates.filter (fun c => (pyDictGet g.crates c).isSome))

/-- crate_graph.blast_radius output record. -/
structure Radius where
  changed : List PyStr
  affected : List PyStr
  affected_count : Nat
  total_crates : Nat
  nodes : List PyStr
  tiers : List Int
  risk : Int
  summary : PyStr

/-- crate_graph.blast_radius (crate_graph.py:84-152).  The float ratio
thresholds are embedded as exact rational comparisons (`cnt/total > 0.8`
as `5·cnt > 4·total`, and so on); no claim depends on the hairline
rounding of the Python float division. -/
def blastRadius (fuel : Nat) (g : CrateGraph) (changed : List PyStr) : Radius :=
  let allAffected := changed.foldl (fun acc crate =>
    if (pyDictGet g.crates crate).isSome then
      let acc := if crate ∈ acc then acc else acc ++ [crate]
      (dependents fuel g crate).foldl
        (fun a d => if d ∈ a then a else a ++ [d]) acc
    else acc) []
  let nodes := dedupList (allAffected.filterMap (fun c =>
    let info := (pyDictGet g.crates c).getD {}
    if pyTruthyOpt info.node then info.node else none))
  let tiers := dedupList (allAffected.map (fun c =>
    match pyDictGet g.crates c with
    | some i => i.tier
    | none => -1))
  let ordered := buildOrder g allAffected
  let total := g.crates.length
  let cnt := allAffected.length
  let risk0 : Int :=
    if 5 * cnt > 4 * total then 9
    else if 2 * cnt > total then 7
    else if 10 * cnt > 3 * total then 6
    else if 20 * cnt > 3 * total then 5
    else if 20 * cnt > total then 3
    else 2
  let risk1 : Int :=
    if (0 : Int) ∈ tiers && !changed.isEmpty
        && changed.any (fun c =>
            match pyDictGet g.crates c with
            | some i => i.tier = 0
            | none => false) then
      max risk0 7
    else risk0
  let sortedNodes := insSort (fun a b => !strLtB b a) nodes
  let sortedTiers := insSort (fun (a b : Int) => a ≤ b) tiers
  { changed := changed, affected := ordered, affected_count := cnt,
    total_crates := total, nodes := sortedNodes, tiers := sortedTiers,
    risk := min 10 risk1,
    summary := natDigits cnt ++ pys "/" ++ natDigits total
      ++ pys " crates affected across " ++ natDigits sortedTiers.length
      ++ pys " tiers, " ++ natDigits sortedNodes.length
      ++ pys " nodes — risk " ++ intStr (min 10 risk1) }

/-- Word-or-hyphen character class of the crate-name pattern
(`[\w-]`, ASCII fragment of `\w`). -/
def isWordOrHyphen (c : Nat) : Bool :=
  (48 ≤ c && c ≤ 57) || (65 ≤ c && c ≤ 90) || (97 ≤ c && c ≤ 122) || c = 95 || c = 45

/-- Length of the regex match `(gently-[\w-]+|gentlyos-[\w-]+)` at the
start of `s`, if any.  When the first alternative's prefix `gently-`
matches, the second cannot (it would need `o` where `-` stands), so the
alternation needs no backtracking across alternatives. -/
def crateMatchLen (s : List Nat) : Option Nat :=
  if pyPrefix (pys "gently-") s then
    let run := ((s.drop 7).takeWhile isWordOrHyphen).length
    if 0 < run then some (7 + run) else none
  else if pyPrefix (pys "gentlyos-") s then
    let run := ((s.drop 9).takeWhile isWordOrHyphen).length
    if 0 < run then some (9 + run) else none
  else none

/-- Left-to-right non-overlapping scan of `re.finditer` for the crate
pattern. -/
def crateScan (fuel : Nat) (s : List Nat) : List PyStr :=
  match fuel, s with
  | 0, _ => []
  | _, [] => []
  | fuel + 1, c :: rest =>
    match crateMatchLen (c :: rest) with
    | some len => (c :: rest).take len :: crateScan fuel ((c :: rest).drop len)
    | none => crateScan fuel rest

/-- engine._extract_crates_from_intent (engine.py:868-878): crate names
matched in the lower-cased intent that exist in the graph.  The Python
function returns `list(set)` (unspecified order); the embedding keeps
first-occurrence order, and no claim depends on it. -/
def extractCrates (intent : PyStr) (g : CrateGraph) : List PyStr :=
  let low := pyLower intent
  dedupList ((crateScan low.length low).filter
    (fun n => (pyDictGet g.crates n).isSome))

-- ── engine.py: execute_leaf, the run pipeline ──────────────────

/-- Environment data for one run: wall clock readings and the live
executor boundary (`executor.execute`, a subprocess-driven call whose
raised exceptions surface as `.error (str e)`). -/
structure RunEnv where
  ts : PyStr
  now : PyStr
  durationMs : Int
  exec : PTask → Except PyStr Out

/-- engine.execute_leaf (engine.py:198-248). -/
def executeLeaf (env : RunEnv) (task : PTask) (dryRun : Bool) : ResultR :=
  let base : ResultR :=
    { node_id := task.node_id, node_name := task.node_name,
      scale := task.scale, intent := task.intent, lineage := task.lineage,
      status := pys "pending" }
  if dryRun then
    { base with
      status := pys "planned"
      output := some (.plan (pys "Would execute: " ++ task.intent)
        task.files task.functions (task.rules.map (·.name))) }
  else
    match env.exec task with
    | .ok out =>
      { base with
        started_at := some env.now
        status := pys "completed"
        output := some out
        completed_at := some env.now }
    | .error e =>
      let r := { base with
                 started_at := some env.now
                 status := pys "failed"
                 error := some e
                 completed_at := some env.now }
      if pyTruthyOpt task.escalation.target then
        { r with
          escalated_to := task.escalation.target
          escalation_reason := some e }
      else r

/-- The blocked-result synthesis appended after EXECUTE
(engine.py:544-561). -/
def mkBlockedResult (env : RunEnv) (task : PTask) (a : Approval) : ResultR :=
  { node_id := task.node_id, node_name := task.node_name,
    scale := task.scale, intent := task.intent, lineage := task.lineage,
    status := pys "blocked",
    output := some (.blockedOut a.reason a.risk a.escalated_to),
    started_at := none, completed_at := some env.now,
    error := none, artifacts := [] }

/-- An escalation record of the VERIFY phase (`from` is spelled `src`;
`reason` is `r.get("error", ...)`, and the `error` key is always present
on a result dict, so the `.get` default never fires). -/
structure EscRecord where
  src : PyStr
  dst : PyStr
  reason : Option PyStr
  cascade : List PyStr
deriving DecidableEq

/-- engine._sort_tasks_by_tier (engine.py:881-899), applied to the
reviewed `(task, approval)` pairs (`task["_approval"]` is a field of the
task dict in Python; the pair plays that role here). -/
def minTier (nodes : NodeDict) (task : PTask) : Int :=
  match pyDictGet nodes task.node_id with
  | none => 99
  | some node =>
    match node.tier with
    | none => 99
    | some (.int i) => i
    | some (.list []) => 99
    | some (.list (x :: xs)) => xs.foldl min x

/-- Stable sort by minimum tier (Python `sorted` is stable; so is
`insSort`). -/
def sortTasksByTier (pairs : List (PTask × Approval)) (nodes : NodeDict) :
    List (PTask × Approval) :=
  insSort (fun a b => minTier nodes a.1 ≤ minTier nodes b.1) pairs

/-- EXECUTE-phase ordering: tier-sorted when a crate graph is loaded
(`if crate_graph:` at engine.py:528-529), untouched otherwise. -/
def orderForExec (graph : Option CrateGraph) (nodes : NodeDict)
    (approved : List (PTask × Approval)) : List (PTask × Approval) :=
  match graph with
  | some _ => sortTasksByTier approved nodes
  | none => approved

/-- The trace dict assembled at SHIP (engine.py:624-644). -/
structure Trace where
  run_id : PyStr
  intent : PyStr
  target : Option PyStr
  dry_run : Bool
  tree_path : PyStr
  tree_title : PyStr
  status : PyStr
  phases_used : List PyStr
  tasks_decomposed : Nat
  tasks_approved : Nat
  tasks_blocked : Nat
  tasks_executed : Nat
  tasks_completed : Nat
  tasks_failed : Nat
  escalations : List EscRecord
  leaf_results : List ResultR
  aggregated : AggOut
  duration_ms : Int
  timestamp : PyStr

/-- What engine.run returns: the early no-match dict or the full trace. -/
inductive RunOutcome where
  | noMatch (run_id intent message : PyStr) (duration_ms : Int)
  | traced (t : Trace)

/-- The PLAN phase of engine.run (engine.py:458-488): blast-radius
decomposition when a crate graph is loaded and the intent mentions known
crates, keyword decomposition otherwise.  The Python loop iterates
`set(crate_radius["nodes"])`; the embedding iterates the sorted `nodes`
list the radius carries (the claims proved over `run` are insensitive to
this order). -/
def planTasks (fuel : Nat) (nodes : NodeDict) (intent : PyStr)
    (targetId : Option PyStr) (graph : Option CrateGraph) : List PTask :=
  match graph with
  | some g =>
    let mentioned := extractCrates intent g
    if mentioned.isEmpty then decompose fuel nodes intent targetId
    else
      let radius := blastRadius fuel g mentioned
      let affected := radius.nodes
      if !affected.isEmpty && !(pyTruthyOpt targetId) then
        dedupTasks (affected.flatMap (fun nid =>
          if (pyDictGet nodes nid).isSome then walkDown fuel nodes nid intent
          else []))
      else decompose fuel nodes intent targetId
  | none => decompose fuel nodes intent targetId

/-- Phases REVIEW through SHIP of engine.run (engine.py:507-664),
applied to the PLANned task list.  Split out of `run` so the trace
invariants can be stated directly on the assembled trace. -/
def runShip (fuel : Nat) (env : RunEnv) (nodes : NodeDict)
    (treePath : PyStr) (title : Option PyStr) (intent : PyStr)
    (targetId : Option PyStr) (dryRun : Bool) (graph : Option CrateGraph)
    (tasks : List PTask) : Trace :=
    let reviewed := tasks.map (fun t => (t, checkApproval t))
    let approved := reviewed.filter (fun p => !p.2.blocked)
    let blockedT := reviewed.filter (fun p => p.2.blocked)
    let approvedOrd := orderForExec graph nodes approved
    let results := approvedOrd.map (fun p => executeLeaf env p.1 dryRun)
      ++ blockedT.map (fun p => mkBlockedResult env p.1 p.2)
    let completedN := results.countP
      (fun r => r.status = pys "completed" || r.status = pys "planned")
    let failedN := results.countP (fun r => r.status = pys "failed")
    let blockedN := results.countP (fun r => r.status = pys "blocked")
    let escs := results.filterMap (fun r =>
      if r.status = pys "failed" then
        match pyDictGet nodes r.node_id with
        | none => none
        | some node =>
          if pyTruthyOpt node.escalation.target then
            some { src := r.node_id, dst := node.escalation.target.getD ∅,
                   reason := r.error, cascade := node.escalation.cascade }
          else none
      else none)
    let aggregated := aggregate fuel nodes results targetId
    let overall :=
      if 0 < failedN && completedN = 0 then pys "failed"
      else if 0 < blockedN && completedN = 0 then pys "blocked"
      else if 0 < failedN then pys "partial"
      else if 0 < blockedN then pys "partial_blocked"
      else pys "completed"
    { run_id := pys "ptc-" ++ env.ts, intent := intent, target := targetId,
      dry_run := dryRun, tree_path := treePath,
      tree_title := title.getD (pys "unknown"), status := overall,
      phases_used := [pys "INTAKE", pys "TRIAGE", pys "PLAN", pys "REVIEW",
        pys "EXECUTE", pys "VERIFY", pys "INTEGRATE", pys "SHIP"],
      tasks_decomposed := tasks.length, tasks_approved := approved.length,
      tasks_blocked := blockedT.length, tasks_executed := results.length,
      tasks_completed := completedN, tasks_failed := failedN,
      escalations := escs, leaf_results := results, aggregated := aggregated,
      duration_ms := env.durationMs, timestamp := env.now }

/-- engine.run (engine.py:410-664): the eight-phase pipeline.  Event
emission and trace storage are fire-and-forget side effects and do not
appear; the crate graph argument is `none` when `load_graph` raises
(ImportError / FileNotFoundError). -/
def run (fuel : Nat) (env : RunEnv) (doc : TreeDoc) (treePath : PyStr)
    (intent : PyStr) (targetId : Option PyStr) (dryRun : Bool)
    (graph : Option CrateGraph) : RunOutcome :=
  let lt := loadTree doc
  let nodes := lt.1
  let tasks := planTasks fuel nodes intent targetId graph
  if tasks.isEmpty then
    .noMatch (pys "ptc-" ++ env.ts) intent
      (pys "No matching nodes found for intent") env.durationMs
  else
    .traced (runShip fuel env nodes treePath lt.2.1 intent targetId dryRun
      graph tasks)

-- ── SHA-256 (hashlib.sha256(...).hexdigest()) ──────────────────

/-- Right rotation of a 32-bit word. -/
def rotr32 (n x : Nat) : Nat := ((x >>> n) ||| (x <<< (32 - n))) % 4294967296

/-- SHA-256 message-schedule sigma functions. -/
def sSigma0 (x : Nat) : Nat := rotr32 7 x ^^^ rotr32 18 x ^^^ (x >>> 3)

/-- SHA-256 message-schedule sigma functions. -/
def sSigma1 (x : Nat) : Nat := rotr32 17 x ^^^ rotr32 19 x ^^^ (x >>> 10)

/-- SHA-256 compression Sigma functions. -/
def bSigma0 (x : Nat) : Nat := rotr32 2 x ^^^ rotr32 13 x ^^^ rotr32 22 x

/-- SHA-256 compression Sigma functions. -/
def bSigma1 (x : Nat) : Nat := rotr32 6 x ^^^ rotr32 11 x ^^^ rotr32 25 x

/-- The 64 SHA-256 round constants. -/
def shaK : List Nat :=
  [1116352408, 1899447441, 3049323471, 3921009573, 961987163,
   1508970993, 2453635748, 2870763221, 3624381080, 310598401,
   607225278, 1426881987, 1925078388, 2162078206, 2614888103,
   3248222580, 3835390401, 4022224774, 264347078, 604807628,
   770255983, 1249150122, 1555081692, 1996064986, 2554220882,
   2821834349, 2952996808, 3210313671, 3336571891, 3584528711,
   113926993, 338241895, 666307205, 773529912, 1294757372,
   1396182291, 1695183700, 1986661051, 2177026350, 2456956037,
   2730485921, 2820302411, 3259730800, 3345764771, 3516065817,
   3600352804, 4094571909, 275423344, 430227734, 506948616,
   659060556, 883997877, 958139571, 1322822218, 1537002063,
   1747873779, 1955562222, 2024104815, 2227730452, 2361852424,
   2428436474, 2756734187, 3204031479, 3329325298]

/-- SHA-256 initial hash state. -/
def shaH0 : List Nat :=
  [1779033703, 3144134277, 1013904242, 2773480762,
   1359893119, 2600822924, 528734635, 1541459225]

/-- Big-endian packing of bytes into 32-bit words. -/
def words16 : List Nat → List Nat
  | b0 :: b1 :: b2 :: b3 :: rest =>
      (b0 * 16777216 + b1 * 65536 + b2 * 256 + b3) :: words16 rest
  | _ => []

/-- Extend the 16-word schedule by `k` further words. -/
def extendW : Nat → List Nat → List Nat
  | 0, w => w
  | k + 1, w =>
    let n := w.length
    let wi := (w.getD (n - 16) 0 + sSigma0 (w.getD (n - 15) 0)
      + w.getD (n - 7) 0 + sSigma1 (w.getD (n - 2) 0)) % 4294967296
    extendW k (w ++ [wi])

/-- One SHA-256 round on the 8-word working state. -/
def shaRound (s : List Nat) (k w : Nat) : List Nat :=
  match s with
  | [a, b, c, d, e, f, g, h] =>
    let ch := (e &&& f) ^^^ ((4294967295 ^^^ e) &&& g)
    let t1 := (h + bSigma1 e + ch + k + w) % 4294967296
    let maj := (a &&& b) ^^^ (a &&& c) ^^^ (b &&& c)
    let t2 := (bSigma0 a + maj) % 4294967296
    [(t1 + t2) % 4294967296, a, b, c, (d + t1) % 4294967296, e, f, g]
  | s => s

/-- Compress one 64-byte block into the hash state. -/
def compressBlock (h : List Nat) (block : List Nat) : List Nat :=
  let w := extendW 48 (words16 block)
  let s := (shaK.zip w).foldl (fun s kw => shaRound s kw.1 kw.2) h
  (h.zip s).map (fun p => (p.1 + p.2) % 4294967296)

/-- Big-endian 64-bit length field. -/
def be64 (n : Nat) : List Nat :=
  [n / 72057594037927936 % 256, n / 281474976710656 % 256,
   n / 1099511627776 % 256, n / 4294967296 % 256,
   n / 16777216 % 256, n / 65536 % 256, n / 256 % 256, n % 256]

/-- SHA-256 padding: `0x80`, zeros to 56 mod 64, 64-bit bit length. -/
def sha256pad (msg : List Nat) : List Nat :=
  let padZeros := (119 - msg.length % 64) % 64
  msg ++ [128] ++ List.replicate padZeros 0 ++ be64 (8 * msg.length)

/-- Split into 64-byte blocks (fuel bounds the number of blocks; one
unit of fuel per element is always enough). -/
def chunks64Go : Nat → List Nat → List (List Nat)
  | _, [] => []
  | 0, _ :: _ => []
  | fuel + 1, c :: rest =>
      (c :: rest).take 64 :: chunks64Go fuel ((c :: rest).drop 64)

/-- Split into 64-byte blocks. -/
def chunks64 (l : List Nat) : List (List Nat) := chunks64Go l.length l

/-- SHA-256 digest (bytes in, 32 bytes out). -/
def sha256 (msg : List Nat) : List Nat :=
  let final := (chunks64 (sha256pad msg)).foldl compressBlock shaH0
  final.flatMap (fun w =>
    [w / 16777216 % 256, w / 65536 % 256, w / 256 % 256, w % 256])

/-- One hex digit (lower case). -/
def hexChar (n : Nat) : Nat := if n < 10 then 48 + n else 87 + n

/-- `.hexdigest()`: lower-case hex string of a byte list. -/
def hexDigest (bytes : List Nat) : PyStr :=
  bytes.flatMap (fun b => [hexChar (b / 16), hexChar (b % 16)])

/-- UTF-8 encoding of one code point (Python `str.encode()`). -/
def utf8Char (c : Nat) : List Nat :=
  if c < 128 then [c]
  else if c < 2048 then [192 + c / 64, 128 + c % 64]
  else if c < 65536 then [224 + c / 4096, 128 + c / 64 % 64, 128 + c % 64]
  else [240 + c / 262144, 128 + c / 4096 % 64, 128 + c / 64 % 64, 128 + c % 64]

/-- Python `s.encode()` (UTF-8). -/
def utf8 (s : PyStr) : List Nat := s.flatMap utf8Char

-- ── architect.py: intent hashing and blueprint validation ──────

/-- architect._hash_intent (architect.py:510-512):
`sha256(intent.strip().lower().encode()).hexdigest()`. -/
def hashIntent (intent : PyStr) : PyStr :=
  hexDigest (sha256 (utf8 (pyLower (pyStrip intent))))

/-- One `builder_tasks` entry as consulted by validate_blueprint. -/
structure BTask where
  task_id : PyStr := ∅
  target_node : Option PyStr := none
  intent : PyStr := ∅
  files : List PyStr := []
deriving DecidableEq

/-- The blueprint content fields validate_blueprint consults (the
`_get_content` extraction from the artifacts array is taken as given;
an absent field and a falsy field behave alike under `content.get`). -/
structure BContent where
  what : PyStr := ∅
  builder_tasks : List BTask := []
  acceptance_criteria : List PyStr := []
deriving DecidableEq

/-- The `{valid, errors, warnings}` dict of validate_blueprint. -/
structure ValidateOut where
  valid : Bool
  errors : List PyStr
  warnings : List PyStr
deriving DecidableEq

/-- architect.validate_blueprint (architect.py:284-336).  `treeNodes` is
the id set parsed from tree.json (`none` when the file is missing or
malformed); `fileExists` is the `os.path.exists` oracle. -/
def validateBlueprint (content : BContent) (treeNodes : Option (List PyStr))
    (fileExists : PyStr → Bool) : ValidateOut :=
  let errs0 : List PyStr :=
    if !pyTruthy content.what then
      [pys "Missing 'what' — describe what this builds"] else []
  let warn0 : List PyStr :=
    (if content.builder_tasks.isEmpty then
      [pys "No builder_tasks — this blueprint has nothing to build"] else [])
    ++ (if content.acceptance_criteria.isEmpty then
      [pys "No acceptance criteria — how do we know it's done?"] else [])
  let treeSet : List PyStr := (treeNodes.getD [])
  let warnTree : List PyStr :=
    if treeNodes.isNone then
      [pys "Could not load tree.json to validate target nodes"] else []
  let errsT := content.builder_tasks.filterMap (fun bt =>
    match bt.target_node with
    | none => none
    | some t =>
      if pyTruthy t && !treeSet.isEmpty && !(treeSet.contains t) then
        some (pys "Task " ++ bt.task_id ++ pys ": target node '" ++ t
          ++ pys "' not found in tree")
      else none)
  let warnsF := content.builder_tasks.flatMap (fun bt =>
    bt.files.filterMap (fun f =>
      if !fileExists f && !(pyIn (pys "create") (pyLower bt.intent)) then
        some (pys "Task " ++ bt.task_id ++ pys ": file '" ++ f
          ++ pys "' does not exist (will be created?)")
      else none))
  let errors := errs0 ++ errsT
  let warnings := warn0 ++ warnTree ++ warnsF
  { valid := errors.isEmpty, errors := errors, warnings := warnings }

-- ── executor.py: the CODIE interpreter ─────────────────────────

/-- A Python value living in the CODIE context (strings, numbers,
booleans, `None`, lists, dicts). -/
inductive CVal where
  | str (s : PyStr)
  | num (q : Rat)
  | bool (b : Bool)
  | none
  | list (l : List CVal)
  | dict (d : List (PyStr × CVal))

/-- Python truthiness of a context value. -/
def cvalTruthy : CVal → Bool
  | .str s => pyTruthy s
  | .num q => q ≠ 0
  | .bool b => b
  | .none => false
  | .list l => !l.isEmpty
  | .dict d => !d.isEmpty

/-- Python `str(v)` as far as path interpolation needs it.  Rendering of
non-integral floats is abstracted to a placeholder: no claim interpolates
a float into a path. -/
def cvalStr : CVal → PyStr
  | .str s => s
  | .num q => if q.den = 1 then intStr q.num else pys "<float>"
  | .bool b => if b then pys "True" else pys "False"
  | .none => pys "None"
  | .list _ => pys "<list>"
  | .dict _ => pys "<dict>"

/-- Python `float(v)` for condition comparisons; `none` where Python
raises ValueError/TypeError (the caller catches those and yields False). -/
def parseFloat (s : PyStr) : Option Rat :=
  let t := pyStrip s
  let (sign, t) : Int × List Nat :=
    match t with
    | 45 :: rest => (-1, rest)
    | 43 :: rest => (1, rest)
    | _ => (1, t)
  let isDigit := fun (c : Nat) => 48 ≤ c && c ≤ 57
  let intPart := t.takeWhile isDigit
  let rest := t.dropWhile isDigit
  let (fracPart, tail) : List Nat × List Nat :=
    match rest with
    | 46 :: r => (r.takeWhile isDigit, r.dropWhile isDigit)
    | _ => ([], rest)
  if tail.isEmpty && !(intPart.isEmpty && fracPart.isEmpty)
      && (rest.isEmpty || rest.head? = some 46) then
    let digitsVal := fun (l : List Nat) => l.foldl (fun (a : Nat) c => 10 * a + (c - 48)) 0
    let ip : Rat := (digitsVal intPart : Int)
    let fp : Rat := (digitsVal fracPart : Int) / ((10 : Rat) ^ fracPart.length)
    some (sign * (ip + fp))
  else Option.none

/-- Python `float(val)` on a context value (ValueError/TypeError as
`none`). -/
def cvalFloat : CVal → Option Rat
  | .str s => parseFloat s
  | .num q => some q
  | .bool b => some (if b then 1 else 0)
  | _ => Option.none

/-- Python `s.replace(old, new)` with fuel (`old` is never empty at the
interpolation call sites). -/
def pyReplaceF : Nat → PyStr → PyStr → PyStr → PyStr
  | 0, _, _, s => s
  | fuel + 1, old, new, s =>
    match s with
    | [] => []
    | c :: rest =>
      if !(List.isEmpty old) && pyPrefix old (c :: rest) then
        new ++ pyReplaceF fuel old new ((c :: rest).drop old.length)
      else c :: pyReplaceF fuel old new rest

/-- Python `s.replace(old, new)`. -/
def pyReplace (old new s : PyStr) : PyStr := pyReplaceF s.length old new s

/-- `{var}` interpolation over string-valued variables only (cali args,
biz values). -/
def interpStrVars (vars : List (PyStr × CVal)) (s : PyStr) : PyStr :=
  vars.foldl (fun s kv =>
    match kv.2 with
    | .str v => pyReplace (pys "\x7b" ++ kv.1 ++ pys "\x7d") v s
    | _ => s) s

/-- `{var}` and `{var.field}` interpolation (CodieContext._read_file,
_run_validator). -/
def interpAllVars (vars : List (PyStr × CVal)) (s : PyStr) : PyStr :=
  vars.foldl (fun s kv =>
    match kv.2 with
    | .str v => pyReplace (pys "\x7b" ++ kv.1 ++ pys "\x7d") v s
    | .dict d => d.foldl (fun s fkv =>
        pyReplace (pys "\x7b" ++ kv.1 ++ pys "." ++ fkv.1 ++ pys "\x7d")
          (cvalStr fkv.2) s) s
    | _ => s) s

/-- `s.endswith(suffix)`. -/
def pySuffix (suffix s : PyStr) : Bool :=
  pyPrefix ((suffix : List Nat).reverse) ((s : List Nat).reverse)

/-- Full `str.split(sep)` (all occurrences; `sep` nonempty). -/
def pySplitOnF : Nat → PyStr → PyStr → List PyStr
  | 0, _, s => [s]
  | fuel + 1, sep, s =>
    match s with
    | [] => [[]]
    | c :: rest =>
      if !(List.isEmpty sep) && pyPrefix sep (c :: rest) then
        [] :: pySplitOnF fuel sep ((c :: rest).drop sep.length)
      else
        match pySplitOnF fuel sep rest with
        | [] => [[c]]
        | piece :: pieces => (c :: piece) :: pieces

/-- Python `s.split(sep)`. -/
def pySplitOn (sep s : PyStr) : List PyStr := pySplitOnF s.length sep s

/-- Python `s.strip('"')`: drop double quotes from both ends. -/
def stripQuotes (s : PyStr) : PyStr :=
  ((s : List Nat).dropWhile (· = 34)).reverse.dropWhile (· = 34) |>.reverse

/-- CodieContext._eval_condition (executor.py:1254-1285).  A condition
`x.` with nothing after the dot raises IndexError in Python (surfacing
as `{"error": ...}` from _execute_codie); it is mapped to False here and
never exercised by a claim. -/
def evalCondition (vars : List (PyStr × CVal)) (cond : PyStr) : Bool :=
  let condition := pyStrip cond
  let dotCase : Option Bool :=
    if pyIn (pys ".") condition then
      let p0 := (condition : List Nat).takeWhile (· ≠ 46)
      let p1 := ((condition : List Nat).dropWhile (· ≠ 46)).drop 1
      match pyDictGet vars p0 with
      | some (.dict d) =>
        match pySplitWs p1 with
        | [] => some false
        | field :: _ =>
          let val := pyDictGet d field
          if pyIn (pys " < ") condition then
            some (match (pySplitOn (pys " < ") condition).getD 1 ∅ |> parseFloat with
              | some threshold =>
                match val with
                | some v => (cvalFloat v).elim false (fun q => decide (q < threshold))
                | Option.none => false
              | Option.none => false)
          else if pyIn (pys " > ") condition then
            some (match (pySplitOn (pys " > ") condition).getD 1 ∅ |> parseFloat with
              | some threshold =>
                match val with
                | some v => (cvalFloat v).elim false (fun q => decide (threshold < q))
                | Option.none => false
              | Option.none => false)
          else
            some (val.elim false cvalTruthy)
      | _ => Option.none
    else Option.none
  match dotCase with
  | some b => b
  | Option.none => (pyDictGet vars condition).elim false cvalTruthy

/-- CODIE AST node (the dict shapes produced by _parse_codie). -/
inductive CNode where
  | entry (name : PyStr) (children : List CNode)
  | fetch (target source : PyStr)
  | bind (name value : PyStr)
  | call (name args : PyStr) (children : List CNode)
  | guard (name : PyStr) (children : List CNode)
  | rule (name : PyStr) (negated : Bool) (body : PyStr) (children : List CNode)
  | loop (var collection : PyStr) (body : List CNode)
  | conditional (condition action : PyStr)
  | ret (value : PyStr)
  | checkpoint (name : PyStr)
  | const (name value : PyStr)
  | transform (condition target : PyStr)
  | struct (name : PyStr) (fields : List (PyStr × PyStr))
  | comment (text : PyStr)

/-- A checkpoint snapshot (CodieContext._exec_checkpoint). -/
structure CCheckpoint where
  name : PyStr
  timestamp : PyStr
  variables_set : List PyStr
  constants_set : List PyStr

/-- CodieContext state. -/
structure CCtx where
  node_id : PyStr := ∅
  intent : PyStr := ∅
  vars : List (PyStr × CVal) := []
  constants : List (PyStr × CVal) := []
  checkpoints : List CCheckpoint := []
  structs : List (PyStr × List (PyStr × PyStr)) := []
  results : List CVal := []

/-- `_read_file` outcome from the filesystem. -/
inductive FsRes where
  | missing
  | content (s : PyStr)
  | readError (e : PyStr)

/-- A subprocess.run outcome (`failedEx` covers FileNotFoundError /
TimeoutExpired as `str(e)`). -/
inductive ProcRes where
  | ok (exitCode : Int) (stdout stderr : PyStr)
  | failedEx (e : PyStr)

/-- `[cmd, "--version"]` probe outcome. -/
inductive ToolRes where
  | ok (stdout : PyStr)
  | notFound
  | timeout

/-- Validator script outcome. -/
inductive ValRes where
  | ok (exitCode : Int) (stdout : PyStr)
  | raised (e : PyStr)
  | missing

/-- `shell=True` command outcome for _safe_shell. -/
inductive ShellRes where
  | ok (exitCode : Int) (stdout stderr : PyStr)
  | timeout

/-- Effect oracles for the interpreter: the wall clock, filesystem,
platform module, toolchains and subprocesses.  `jsonLoads` stands for
`json.loads` in spin-collection parsing. -/
structure CEnv where
  now : PyStr := ∅
  fs : PyStr → FsRes := fun _ => .missing
  osType : PyStr := ∅
  osRelease : PyStr := ∅
  machine : PyStr := ∅
  diskTotalGb : Rat := 0
  diskFreeGb : Rat := 0
  cargoBuild : PyStr → ProcRes := fun _ => .failedEx ∅
  cargoTestWorkspace : ProcRes := .failedEx ∅
  toolVersion : PyStr → ToolRes := fun _ => .notFound
  validator : PyStr → ValRes := fun _ => .missing
  shell : PyStr → ShellRes := fun _ => .timeout
  jsonLoads : PyStr → Option CVal := fun _ => Option.none

/-- CodieContext._read_file: interpolate, probe, truncate to 50000. -/
def readFileC (env : CEnv) (vars : List (PyStr × CVal)) (path : PyStr) : CVal :=
  let path := interpAllVars vars path
  match env.fs path with
  | .content s => .str (s.take 50000)
  | .readError e => .dict [(pys "error", .str e), (pys "path", .str path)]
  | .missing => .dict [(pys "missing", .bool true), (pys "path", .str path)]

/-- CodieContext._system_query. -/
def systemQuery (env : CEnv) (query : PyStr) : CVal :=
  if query = pys "detect_os" then
    .dict [(pys "type", .str (pyLower env.osType)),
           (pys "release", .str env.osRelease),
           (pys "machine", .str env.machine),
           (pys "unknown", .bool false)]
  else if query = pys "detect_all" || query = pys "specs" then
    .dict [(pys "os", .str (pyLower env.osType)),
           (pys "machine", .str env.machine),
           (pys "disk_total_gb", .num env.diskTotalGb),
           (pys "disk_free_gb", .num env.diskFreeGb)]
  else .dict [(pys "query", .str query), (pys "result", .str (pys "unknown"))]

/-- CodieContext._cargo_op. -/
def cargoOp (env : CEnv) (op : PyStr) : CVal :=
  if pyPrefix (pys "build(") op && pySuffix (pys ")") op then
    let crate := ((op : List Nat).drop 6).dropLast
    match env.cargoBuild crate with
    | .ok rc _ err =>
      .dict [(pys "crate", .str crate),
             (pys "success", .bool (rc = 0)),
             (pys "failed", .bool (rc ≠ 0)),
             (pys "error", .str (if rc ≠ 0 then err.take 2000 else ∅))]
    | .failedEx e =>
      .dict [(pys "crate", .str crate), (pys "failed", .bool true),
             (pys "error", .str e)]
  else if op = pys "test_workspace" then
    match env.cargoTestWorkspace with
    | .ok rc out _ =>
      .dict [(pys "success", .bool (rc = 0)), (pys "failed", .bool (rc ≠ 0)),
             (pys "output", .str (out.take 5000))]
    | .failedEx e =>
      .dict [(pys "failed", .bool true), (pys "error", .str e)]
  else .dict [(pys "op", .str op), (pys "status", .str (pys "unknown"))]

/-- CodieContext._check_toolchain. -/
def checkToolchain (env : CEnv) (tool : PyStr) : CVal :=
  let cmd := if tool = pys "rust" then pys "rustc"
             else if tool = pys "c_compiler" then pys "cc"
             else if tool = pys "nix" then pys "nix" else tool
  match env.toolVersion cmd with
  | .ok out =>
    .dict [(pys "tool", .str tool), (pys "available", .bool true),
           (pys "missing", .bool false),
           (pys "version", .str ((pyStrip out).take 100))]
  | .notFound =>
    .dict [(pys "tool", .str tool), (pys "available", .bool false),
           (pys "missing", .bool true)]
  | .timeout =>
    .dict [(pys "tool", .str tool), (pys "available", .bool false),
           (pys "missing", .bool true), (pys "error", .str (pys "timeout"))]

/-- CodieContext._run_validator. -/
def runValidator (env : CEnv) (vars : List (PyStr × CVal)) (validator : PyStr) :
    CVal :=
  let validator := interpAllVars vars validator
  match env.validator validator with
  | .missing =>
    .dict [(pys "errors", .num 0), (pys "skipped", .bool true),
           (pys "reason", .str (pys "validator not found: " ++ validator))]
  | .ok rc out =>
    .dict [(pys "errors", .num (if rc = 0 then 0 else 1)),
           (pys "output", .str (out.take 2000))]
  | .raised e =>
    .dict [(pys "errors", .num 1), (pys "error", .str e)]

/-- CodieContext._resolve_source (executor.py:947-982): prefix dispatch
to the filesystem, platform, toolchain and validator resolvers. -/
def resolveSource (env : CEnv) (vars : List (PyStr × CVal)) (source : PyStr) :
    CVal :=
  let source := pyStrip source
  if pyPrefix (pys "@fs/read(") source && pySuffix (pys ")") source then
    readFileC env vars (pyStrip ((source : List Nat).drop 9).dropLast)
  else if pyPrefix (pys "@system/") source then
    systemQuery env ((source : List Nat).drop 8)
  else if pyPrefix (pys "@cargo/") source then
    cargoOp env ((source : List Nat).drop 7)
  else if pyPrefix (pys "@toolchain/") source then
    checkToolchain env ((source : List Nat).drop 11)
  else if pyPrefix (pys "@validators/") source then
    runValidator env vars ((source : List Nat).drop 12)
  else if pyPrefix (pys "@") source then
    readFileC env vars ((source : List Nat).drop 1)
  else
    readFileC env vars source

/-- CodieContext._safe_shell (executor.py:1149-1169). -/
def safeShell (env : CEnv) (command : PyStr) : CVal :=
  let allowed := [pys "make ", pys "cargo ", pys "nix ", pys "rustc ",
    pys "rustfmt ", pys "docker ps", pys "docker info", pys "node "]
  if !allowed.any (fun p => pyPrefix p command) then
    .dict [(pys "command", .str command), (pys "status", .str (pys "blocked")),
           (pys "reason", .str (pys "not in safe command set"))]
  else
    match env.shell command with
    | .ok rc out err =>
      .dict [(pys "command", .str command), (pys "exit_code", .num rc),
             (pys "stdout", .str (out.take 5000)),
             (pys "stderr", .str (if rc ≠ 0 then err.take 2000 else ∅))]
    | .timeout =>
      .dict [(pys "command", .str command),
             (pys "status", .str (pys "timeout"))]

/-- The `safe_calls` dispatch of CodieContext._exec_call
(executor.py:1124-1140). -/
def safeCallResult (env : CEnv) (ctx : CCtx) (name args : PyStr) : CVal :=
  let callUpper := pyUpper name
  if callUpper = pys "EXECUTE_INTENT" then
    .dict [(pys "intent", .str ctx.intent), (pys "executed", .bool true)]
  else if callUpper = pys "BUILD" then
    safeShell env (if pyTruthy args then pys "make build-" ++ args
                   else pys "make build")
  else if callUpper = pys "TEST" then
    safeShell env (if !pyTruthy args then pys "make test"
                   else pys "cargo test -p " ++ args)
  else if callUpper = pys "STATUS" then safeShell env (pys "make status")
  else if callUpper = pys "VERIFY" then safeShell env (pys "make verify-sandbox")
  else if callUpper = pys "SEED" then safeShell env (pys "make gentlyos-seed")
  else
    .dict [(pys "call", .str name), (pys "args", .str args),
           (pys "status", .str (pys "planned")),
           (pys "reason", .str (pys "unknown call pattern"))]

/-- Checkpoint list as the CVal it appears as inside returned dicts. -/
def ckptCVal (c : CCheckpoint) : CVal :=
  .dict [(pys "name", .str c.name), (pys "timestamp", .str c.timestamp),
         (pys "variables_set", .list (c.variables_set.map .str)),
         (pys "constants_set", .list (c.constants_set.map .str))]

/-- `child.get("type") == "Rule"` test with the fields _exec_guard reads. -/
def ruleParts : CNode → Option (Bool × PyStr)
  | .rule _ negated body _ => some (negated, body)
  | _ => Option.none

mutual
/-- CodieContext._exec_node and the per-keyword handlers
(executor.py:873-1335).  `ctx.vars` models `self.variables`.  State
threads left to right exactly as the Python interpreter mutates it. -/
def execNode (env : CEnv) (fuel : Nat) (ctx : CCtx) : CNode → CCtx × Option CVal
  | .entry name children =>
    let ctx := { ctx with vars := pyDictInsert ctx.vars (pys "_entry") (.str name) }
    match fuel with
    | 0 => (ctx, Option.none)
    | fuel + 1 => execSeq env fuel ctx children
  | .fetch target source =>
    let value := resolveSource env ctx.vars source
    (if pyTruthy target then
      { ctx with vars := pyDictInsert ctx.vars target value } else ctx,
     Option.none)
  | .bind name value =>
    let v : CVal := if pyPrefix (pys "@") value then
      resolveSource env ctx.vars value else .str value
    if (pyDictGet ctx.constants name).isSome then (ctx, Option.none)
    else ({ ctx with vars := pyDictInsert ctx.vars name v }, Option.none)
  | .call name args children =>
    let args := interpStrVars ctx.vars args
    let result := safeCallResult env ctx name args
    let ctx := (match fuel with
      | 0 => ctx
      | fuel + 1 => (execSeq env fuel ctx children).1)
    ({ ctx with vars := pyDictInsert ctx.vars (pys "_call_" ++ name) result },
     Option.none)
  | .guard _name children =>
    (match fuel with
     | 0 => ctx
     | fuel + 1 => execGuardChildren env fuel ctx children, Option.none)
  | .rule name negated body children =>
    let ruleKey := if pyTruthy name then name
      else (pyReplace (pys " ") (pys "_") body).take 30
    let rv : CVal := .dict [(pys "negated", .bool negated),
      (pys "body", .str body), (pys "enforced", .bool true)]
    let ctx := { ctx with vars := pyDictInsert ctx.vars (pys "_rule_" ++ ruleKey) rv }
    let ctx := (match fuel with
      | 0 => ctx
      | fuel + 1 => (execSeq env fuel ctx children).1)
    (ctx, Option.none)
  | .loop var collection body =>
    let items : CVal :=
      match pyDictGet ctx.vars collection with
      | some v => v
      | Option.none =>
        match env.jsonLoads collection with
        | some v => v
        | Option.none =>
          if pyTruthy collection then .list [.str collection] else .list []
    let itemsL := match items with | .list l => l | v => [v]
    (match fuel with
     | 0 => ctx
     | fuel + 1 => execItems env fuel var body ctx itemsL, Option.none)
  | .conditional condition action =>
    if evalCondition ctx.vars condition then
      if pyPrefix (pys "return ") action || pyPrefix (pys "return\"") action then
        (ctx, some (.dict [(pys "returned",
          .str (stripQuotes (pyStrip ((action : List Nat).drop 7))))]))
      else if pyPrefix (pys "warn ") action then
        let w : CVal := .dict [(pys "warning",
          .str (stripQuotes (pyStrip ((action : List Nat).drop 5))))]
        ({ ctx with results := ctx.results ++ [w] }, Option.none)
      else (ctx, Option.none)
    else (ctx, Option.none)
  | .ret value =>
    let value := interpStrVars ctx.vars value
    (ctx, some (.dict [(pys "returned", .str value),
      (pys "checkpoints", .list (ctx.checkpoints.map ckptCVal)),
      (pys "variables", .list (ctx.vars.map (fun kv => .str kv.1)))]))
  | .checkpoint name =>
    let ck : CCheckpoint :=
      { name := name, timestamp := env.now,
        variables_set := ctx.vars.map (·.1),
        constants_set := ctx.constants.map (·.1) }
    ({ ctx with checkpoints := ctx.checkpoints ++ [ck] }, Option.none)
  | .const name value =>
    let cs := pyDictInsert ctx.constants name (.str value)
    let vs := pyDictInsert ctx.vars name (.str value)
    ({ ctx with constants := cs, vars := vs }, Option.none)
  | .transform condition target =>
    if evalCondition ctx.vars condition then
      let vs := pyDictInsert ctx.vars (pys "_transform_result") (.str target)
      ({ ctx with vars := vs }, Option.none)
    else (ctx, Option.none)
  | .struct name fields =>
    let ss := pyDictInsert ctx.structs name fields
    let vs := pyDictInsert ctx.vars name (.dict (fields.map (fun f => (f.1, CVal.none))))
    ({ ctx with structs := ss, vars := vs }, Option.none)
  | .comment _ => (ctx, Option.none)

/-- Sequential child execution keeping the last non-null result
(CodieContext.execute / _exec_entry loop shape). -/
def execSeq (env : CEnv) (fuel : Nat) (ctx : CCtx) : List CNode → CCtx × Option CVal
  | [] => (ctx, Option.none)
  | n :: rest =>
    match fuel with
    | 0 => (ctx, Option.none)
    | fuel + 1 =>
      let p := execNode env fuel ctx n
      let q := execSeq env fuel p.1 rest
      (q.1, match q.2 with | some v => some v | Option.none => p.2)

/-- The spin body: bind the loop variable, run the body, next item. -/
def execItems (env : CEnv) (fuel : Nat) (var : PyStr) (body : List CNode)
    (ctx : CCtx) : List CVal → CCtx
  | [] => ctx
  | item :: rest =>
    match fuel with
    | 0 => ctx
    | fuel + 1 =>
      let ctx := { ctx with vars := pyDictInsert ctx.vars var item }
      let ctx := (execSeq env fuel ctx body).1
      execItems env fuel var body ctx rest

/-- CodieContext._exec_guard (executor.py:1171-1193): bones are recorded
as active constraints; other children execute; NOTHING here raises
CodieHalt — a violated constraint never halts execution. -/
def execGuardChildren (env : CEnv) (fuel : Nat) (ctx : CCtx) :
    List CNode → CCtx
  | [] => ctx
  | c :: rest =>
    match fuel with
    | 0 => ctx
    | fuel + 1 =>
      match ruleParts c with
      | some nb =>
        let stem : PyStr := (pyReplace (pys " ") (pys "_") nb.2).take 30
        let key := pys "_constraint_" ++ stem
        let cv : CVal := .dict [(pys "negated", .bool nb.1), (pys "active", .bool true)]
        let ctx := { ctx with vars := pyDictInsert ctx.vars key cv }
        execGuardChildren env fuel ctx rest
      | Option.none =>
        let ctx := (execNode env fuel ctx c).1
        execGuardChildren env fuel ctx rest
end

/-- CodieContext.execute (executor.py:873-880): run the program, fall
back to the completed/checkpoints dict when no node produced a value. -/
def execProgram (env : CEnv) (fuel : Nat) (ctx : CCtx) (nodes : List CNode) :
    CCtx × CVal :=
  let p := execSeq env fuel ctx nodes
  (p.1, match p.2 with
        | some v => v
        | Option.none => .dict [(pys "completed", .bool true),
            (pys "checkpoints", .list (p.1.checkpoints.map ckptCVal))])

/-- `"error" not in result` of _execute_codie (dict key test; the string
and list arms mirror Python `in`; other types would raise TypeError but
`execute` only returns dicts). -/
def hasErrorKey : CVal → Bool
  | .dict d => d.any (fun kv => kv.1 = pys "error")
  | .str s => pyIn (pys "error") s
  | .list l => l.any (fun v => match v with
      | .str s => s = pys "error"
      | _ => false)
  | _ => false

/-- What _execute_codie returns: the approval-gate block, or the
interpretation outcome record (its `status`, `result`, `checkpoints`,
`variables_set`, `approval` fields; `codie_source`/`instruction_count`
are display copies of the source text, which this embedding takes as
already parsed). -/
inductive CodieOutcome where
  | blockedGate (reason : PyStr) (risk : Int) (escalatedTo : Option PyStr)
  | done (status : PyStr) (result : CVal) (checkpoints : List CCheckpoint)
      (variables_set : List PyStr) (approval : Approval)

/-- executor._execute_codie (executor.py:747-848) from the point where
the CODIE AST is in hand: approval gate, interpretation, result
assembly.  `CodieHalt` is defined (executor.py:854) but never raised
anywhere in the interpreter, so the `except CodieHalt` branch producing
`{"halted": True, "reason": ...}` (executor.py:808-809) is dead code and
needs no case here; likewise the generic `except` branch. -/
def executeCodieParsed (env : CEnv) (fuel : Nat) (task : PTask)
    (ast : List CNode) : CodieOutcome :=
  let approval := checkApproval task
  if approval.blocked then
    .blockedGate approval.reason approval.risk approval.escalated_to
  else
    let ctx0 : CCtx := { node_id := task.node_id, intent := task.intent }
    let p := execProgram env fuel ctx0 ast
    .done (if !hasErrorKey p.2 then pys "completed" else pys "failed")
      p.2 p.1.checkpoints (p.1.vars.map (·.1)) approval

-- ── Specification-side definitions and concrete instances ──────

/-- The risk formula exactly as the claim words it: the high-risk `+3`
and the medium-risk `+1` are independent additive contributions (the
source instead uses `elif`, making them mutually exclusive). -/
def riskClaimFormula (t : PTask) : Int :=
  let intent := pyLower t.intent
  let base := scaleRisk t.scale
  let hi : Int := if highRiskWords.any (fun w => pyIn w intent) then 3 else 0
  let med : Int := if mediumRiskWords.any (fun w => pyIn w intent) then 1 else 0
  let fs : Int :=
    if t.files.any (fun f => sensitivePaths.any (fun p => pyIn p f)) then 1
    else 0
  let ra : Int := if 3 < t.rules.length then -1 else 0
  max 1 (min 10 (base + hi + med + fs + ra))

/-- The amended intent contribution: `+3` on a high-risk word, else `+1`
on a medium-risk word (the source's if/elif). -/
def intentAdjAmended (intent : PyStr) : Int :=
  if highRiskWords.any (fun w => pyIn w (pyLower intent)) then 3
  else if mediumRiskWords.any (fun w => pyIn w (pyLower intent)) then 1
  else 0

/-- `+1` when a referenced file matches a sensitive prefix. -/
def fileAdjSpec (files : List PyStr) : Int :=
  if files.any (fun f => sensitivePaths.any (fun p => pyIn p f)) then 1 else 0

/-- `-1` when more than three rules constrain the task. -/
def ruleAdjSpec (rules : List PRule) : Int :=
  if 3 < rules.length then -1 else 0

/-- The spec's example task: department scale, intent
"force delete all sessions", files ["security/tokens.json"]. -/
def riskExampleTask : PTask :=
  { node_id := pys "dept:security", node_name := pys "Security",
    scale := pys "department", intent := pys "force delete all sessions",
    lineage := [], files := [pys "security/tokens.json"], functions := [],
    rules := [], escalation := {} }

/-- A task whose intent matches both a high- and a medium-risk word. -/
def riskBothWordsTask : PTask :=
  { node_id := pys "capt:x", node_name := pys "X",
    scale := pys "captain", intent := pys "force deploy",
    lineage := [], files := [], functions := [],
    rules := [], escalation := {} }

/-- Descendant leaves (of the result map) under a node: the leaves the
aggregation can see.  Mirrors the recursion structure of
engine.aggregate / engine.get_leaves. -/
def resultLeavesF (fuel : Nat) (nodes : NodeDict)
    (rm : List (PyStr × ResultR)) (nid : PyStr) : List ResultR :=
  match fuel with
  | 0 => []
  | fuel + 1 =>
    match pyDictGet nodes nid with
    | Option.none => []
    | some node =>
      if node.children.isEmpty then (pyDictGet rm nid).toList
      else node.children.flatMap (fun c => resultLeavesF fuel nodes rm c)

/-- Fuel adequacy: enough fuel to explore the whole subtree under a
node (false at zero, recursively true on all children). -/
def okFuel : Nat → NodeDict → PyStr → Bool
  | 0, _, _ => false
  | fuel + 1, nodes, nid =>
    match pyDictGet nodes nid with
    | Option.none => true
    | some node => node.children.all (fun c => okFuel fuel nodes c)

/-- `children_count` of a branch roll-up dict (absent on leaves). -/
def Agg.childrenCountI : Agg → Option Nat
  | .leaf _ => Option.none
  | .branch _ _ _ _ _ _ cc _ _ _ _ _ => some cc

/-- `completed` counter of a branch roll-up dict. -/
def Agg.completedCntI : Agg → Option Nat
  | .leaf _ => Option.none
  | .branch _ _ _ _ _ _ _ cp _ _ _ _ => some cp

/-- `failed` counter of a branch roll-up dict. -/
def Agg.failedCntI : Agg → Option Nat
  | .leaf _ => Option.none
  | .branch _ _ _ _ _ _ _ _ fl _ _ _ => some fl

/-- The trace of a run outcome, when the run got past PLAN. -/
def traceOf : RunOutcome → Option Trace
  | .noMatch _ _ _ _ => Option.none
  | .traced t => some t

-- ── Concrete instances used by the claim theorems ─────────────

/-- A task used to instantiate the approval-gate theorem (risk 9:
department scale plus a destructive word). -/
def c2WitnessTask : PTask :=
  { node_id := pys "dept:s", node_name := pys "S",
    scale := pys "department", intent := pys "wipe the cache",
    lineage := [], files := [], functions := [],
    rules := [], escalation := {} }

/-- A tree document with two parentless nodes (two roots). -/
def c6NodeA : PNode :=
  { name := pys "a", scale := pys "executive", parent := Option.none,
    children := [] }

/-- A tree document with two parentless nodes (two roots). -/
def c6NodeB : PNode :=
  { name := pys "b", scale := pys "department", parent := Option.none,
    children := [] }

/-- A two-root tree document. -/
def c6Doc : TreeDoc := { nodes := [(pys "na", c6NodeA), (pys "nb", c6NodeB)] }

/-- A blueprint content with `what` present but no builder_tasks and no
acceptance criteria. -/
def c8ContentNoTasks : BContent := { what := pys "Build a dashboard" }

/-- A blueprint content referencing a file that does not exist, with an
intent that does not contain "create". -/
def c8MissingFileTask : BTask :=
  { task_id := pys "t1", target_node := some (pys "root"),
    intent := pys "fix the parser", files := [pys "missing.py"] }

/-- A blueprint content referencing a file that does not exist, with an
intent that does not contain "create". -/
def c8ContentMissingFile : BContent :=
  { what := pys "Build a parser fix",
    builder_tasks := [c8MissingFileTask],
    acceptance_criteria := [pys "it parses"] }

/-- The leaf task carrying the fence scenario (captain scale, benign
intent, so the approval gate does not block it). -/
def c4Task : PTask :=
  { node_id := pys "capt:demo", node_name := pys "Demo",
    scale := pys "captain", intent := pys "run codie checks",
    lineage := [], files := [], functions := [],
    rules := [], escalation := {} }

/-- The structured AST of `pug X { fence { bone NOT: destroy_root } cali
DESTROY_ROOT }`: an entry whose children are a guard holding one negated
rule, then a call not on the safe-call whitelist — the shape that drives
_exec_guard, the code path the halt semantics are stated over.  (The
line-based fallback parser flattens nested braces, so it would reach
_exec_rule instead; either way no halt occurs.) -/
def c4Ast : List CNode :=
  [.entry (pys "X")
    [.guard ∅ [.rule ∅ true (pys "destroy_root") []],
     .call (pys "DESTROY_ROOT") ∅ []]]

/-- One-branch tree: root `r` over leaf `l`. -/
def c5NodesA : NodeDict :=
  [(pys "r",
    { name := pys "r", scale := pys "executive", children := [pys "l"] }),
   (pys "l",
    { name := pys "l", scale := pys "captain", parent := some (pys "r") })]

/-- A planned (dry-run) leaf result for `l`. -/
def c5RmA : List (PyStr × ResultR) :=
  [(pys "l",
    { node_id := pys "l", node_name := pys "l", scale := pys "captain",
      intent := pys "t", lineage := [], status := pys "planned" })]

/-- Nested tree: root `r` over branch `d` (leaves `l1`, `l3`) and leaf
`l2`. -/
def c5NodesB : NodeDict :=
  [(pys "r",
    { name := pys "r", scale := pys "executive",
      children := [pys "d", pys "l2"] }),
   (pys "d",
    { name := pys "d", scale := pys "department",
      parent := some (pys "r"), children := [pys "l1", pys "l3"] }),
   (pys "l1",
    { name := pys "l1", scale := pys "captain", parent := some (pys "d") }),
   (pys "l3",
    { name := pys "l3", scale := pys "captain", parent := some (pys "d") }),
   (pys "l2",
    { name := pys "l2", scale := pys "captain", parent := some (pys "r") })]

/-- Results for the nested tree: `l1` completed, `l3` and `l2` failed. -/
def c5RmB : List (PyStr × ResultR) :=
  [(pys "l1",
    { node_id := pys "l1", node_name := pys "l1", scale := pys "captain",
      intent := pys "t", lineage := [], status := pys "completed" }),
   (pys "l3",
    { node_id := pys "l3", node_name := pys "l3", scale := pys "captain",
      intent := pys "t", lineage := [], status := pys "failed" }),
   (pys "l2",
    { node_id := pys "l2", node_name := pys "l2", scale := pys "captain",
      intent := pys "t", lineage := [], status := pys "failed" })]

/-- A tree and results where the single leaf completed. -/
def c5RmW : List (PyStr × ResultR) :=
  [(pys "l",
    { node_id := pys "l", node_name := pys "l", scale := pys "captain",
      intent := pys "t", lineage := [], status := pys "completed" })]

/-- Tree for the C9 witness: a branch with both a block rule and an
escalate rule over two leaves. -/
def c9Nodes : NodeDict :=
  [(pys "r",
    { name := pys "r", scale := pys "department",
      children := [pys "x", pys "y"],
      rules := [{ name := pys "g", condition := pys "always",
                  action := pys "block" },
                { name := pys "e", condition := pys "always",
                  action := pys "escalate" }],
      escalation := { target := some (pys "exec:cto") } }),
   (pys "x",
    { name := pys "x", scale := pys "captain", parent := some (pys "r") }),
   (pys "y",
    { name := pys "y", scale := pys "captain", parent := some (pys "r") })]

/-- Results for the C9 witness: `x` completed, `y` failed. -/
def c9Rm : List (PyStr × ResultR) :=
  [(pys "x",
    { node_id := pys "x", node_name := pys "x", scale := pys "captain",
      intent := pys "t", lineage := [], status := pys "completed" }),
   (pys "y",
    { node_id := pys "y", node_name := pys "y", scale := pys "captain",
      intent := pys "t", lineage := [], status := pys "failed" })]

/-- A tree whose branch has two children in the tree but only one
result-bearing leaf (the other leaf produced nothing). -/
def c10Nodes : NodeDict :=
  [(pys "r",
    { name := pys "r", scale := pys "department",
      children := [pys "x", pys "y"] }),
   (pys "x",
    { name := pys "x", scale := pys "captain", parent := some (pys "r") }),
   (pys "y",
    { name := pys "y", scale := pys "captain", parent := some (pys "r") })]

/-- One result only, for leaf `x`. -/
def c10Rm : List (PyStr × ResultR) :=
  [(pys "x",
    { node_id := pys "x", node_name := pys "x", scale := pys "captain",
      intent := pys "t", lineage := [], status := pys "completed" })]

/-- The two-node tree used for the concrete C1 runs: an executive root
over a single department-scale leaf named "sessions". -/
def c1Doc : TreeDoc :=
  { nodes := [(pys "root",
      { name := pys "root", scale := pys "executive",
        children := [pys "dept:sessions"] }),
    (pys "dept:sessions",
      { name := pys "sessions", scale := pys "department",
        parent := some (pys "root") })] }

/-- A run environment whose executor always raises. -/
def c1Env : RunEnv :=
  { ts := pys "0", now := pys "t0", durationMs := 1,
    exec := fun _ => .error (pys "boom") }

/-- The trace of a benign dry run on the same tree (risk 6 → approved,
planned). -/
def c1WitTrace : Trace :=
  (traceOf (run 8 c1Env c1Doc (pys "tree.json") (pys "sessions")
    Option.none true Option.none)).get (by decide)

-- ── Theorems ───────────────────────────────────────────────────

/-- C3 counterexample: the task with intent "force deploy" (scale
captain) matches both a high-risk word ("force") and a medium-risk word
("deploy").  The claim's formula adds both (3 + 1) giving 7; the code's
if/elif adds only the high-risk 3, giving 6. -/
theorem c3_counterexample_both_words :
    riskClaimFormula riskBothWordsTask = 7 ∧
    calculateRisk riskBothWordsTask = 6 := by
  exact ⟨by decide, by decide⟩

/-- C3 (amended): the risk score equals the claim's formula with the
medium-risk `+1` applied only when no high-risk word matched (if/elif);
it is clamped to [1,10]; and the spec's department example scores 10. -/
theorem c3_risk_formula_amended (t : PTask) :
    calculateRisk t = max 1 (min 10 (scaleRisk t.scale
      + intentAdjAmended t.intent + fileAdjSpec t.files
      + ruleAdjSpec t.rules)) ∧
    1 ≤ calculateRisk t ∧ calculateRisk t ≤ 10 ∧
    calculateRisk riskExampleTask = 10 := by
  refine ⟨rfl, ?_, ?_, by decide⟩
  · exact le_max_left 1 _
  · exact max_le (by norm_num) (min_le_left 10 _)

/-- C2: the approval gate blocks exactly at risk ≥ 7; risk ≥ 9
escalates to "root:human"; risk 7..8 escalates to the node's escalation
target or the configured CTO id "exec:cto"; risk 4..6 proceeds at
director level; risk ≤ 3 proceeds auto-approved. -/
theorem c2_approval_gate (t : PTask) :
    (checkApproval t).risk = calculateRisk t ∧
    ((checkApproval t).blocked = true ↔ 7 ≤ calculateRisk t) ∧
    (9 ≤ calculateRisk t →
      (checkApproval t).escalated_to = some (pys "root:human") ∧
      (checkApproval t).level = pys "human") ∧
    (7 ≤ calculateRisk t → calculateRisk t ≤ 8 →
      (checkApproval t).escalated_to = some
        (if pyTruthyOpt t.escalation.target then
          t.escalation.target.getD (pys "exec:cto") else pys "exec:cto") ∧
      (checkApproval t).level = pys "cto") ∧
    (4 ≤ calculateRisk t → calculateRisk t ≤ 6 →
      (checkApproval t).blocked = false ∧
      (checkApproval t).level = pys "director") ∧
    (calculateRisk t ≤ 3 →
      (checkApproval t).blocked = false ∧
      (checkApproval t).level = pys "captain" ∧
      (checkApproval t).reason = pys "Auto-approved") := by
  by_cases h9 : 9 ≤ calculateRisk t
  · simp [checkApproval, h9]
    omega
  · by_cases h7 : 7 ≤ calculateRisk t
    · simp [checkApproval, h9, h7]
      omega
    · by_cases h4 : 4 ≤ calculateRisk t
      · simp [checkApproval, h9, h7, h4]
        omega
      · simp [checkApproval, h9, h7, h4]

/-- C2 witness: the gate evaluated at a concrete risk-9 task. -/
theorem c2_approval_gate_witness :
    (checkApproval c2WitnessTask).blocked = true ∧
    (checkApproval c2WitnessTask).escalated_to = some (pys "root:human") := by
  refine ⟨((c2_approval_gate c2WitnessTask).2.1).mpr (by decide), ?_⟩
  exact ((c2_approval_gate c2WitnessTask).2.2.1 (by decide)).1

/-- C6 counterexample: a document with two roots loads successfully —
load_tree indexes the nodes and returns; no invariant is checked and no
error surfaces.  (The claim says such a load is a hard failure.) -/
theorem c6_counterexample_two_roots_load :
    loadTree c6Doc = ([(pys "na", c6NodeA), (pys "nb", c6NodeB)],
      Option.none, ([] : List PyStr)) ∧
    List.countP (fun kv => kv.2.parent.isNone) (loadTree c6Doc).1 = 2 := by
  exact ⟨by decide, by decide⟩

/-- find_root yields a node of the dict whose parent key is None. -/
theorem findRoot_mem (l : NodeDict) (nid : PyStr) (h : findRoot l = some nid) :
    ∃ kv, kv ∈ l ∧ kv.1 = nid ∧ kv.2.parent = Option.none := by
  induction l with
  | nil => simp [findRoot] at h
  | cons kv rest ih =>
    unfold findRoot at h
    by_cases hp : kv.2.parent.isNone
    · rw [if_pos hp] at h
      exact ⟨kv, List.mem_cons_self kv rest, Option.some.inj h, by simpa using hp⟩
    · rw [if_neg hp] at h
      obtain ⟨kv', hm, he, hn⟩ := ih h
      exact ⟨kv', List.mem_cons_of_mem kv hm, he, hn⟩

/-- C6 (amended): load_tree performs no structural validation — it is
total on parsed documents (it indexes nodes and returns the meta and
coordination sections, whatever the parent/child structure); the only
root-related behaviour is find_root, which returns the first node whose
parent key is None (or None when there is no such node). -/
theorem c6_load_no_invariant_check (doc : TreeDoc) :
    loadTree doc = (pyDictOf doc.nodes, doc.title, doc.phases) ∧
    (∀ nid, findRoot (pyDictOf doc.nodes) = some nid →
      ∃ kv, kv ∈ pyDictOf doc.nodes ∧ kv.1 = nid ∧
        kv.2.parent = Option.none) := by
  exact ⟨rfl, fun nid h => findRoot_mem _ nid h⟩

/-- C6 witness: the amended theorem instantiated at the two-root
document; find_root picks the first parentless node. -/
theorem c6_load_no_invariant_check_witness :
    loadTree c6Doc = (pyDictOf c6Doc.nodes, c6Doc.title, c6Doc.phases) ∧
    (∃ kv, kv ∈ pyDictOf c6Doc.nodes ∧ kv.1 = pys "na" ∧
      kv.2.parent = Option.none) := by
  exact ⟨(c6_load_no_invariant_check c6Doc).1,
    (c6_load_no_invariant_check c6Doc).2 (pys "na") (by decide)⟩

/-- C8 counterexample: validate_blueprint returns valid = true both when
`builder_tasks` / `acceptance.criteria` are absent (they only warn) and
when a referenced file does not exist without "create" in the intent
(also only a warning).  The claim says each of these makes valid =
false. -/
theorem c8_counterexample_warnings_not_errors :
    (validateBlueprint c8ContentNoTasks (some [pys "root"])
      (fun _ => false)).valid = true ∧
    (validateBlueprint c8ContentMissingFile (some [pys "root"])
      (fun _ => false)).valid = true := by
  exact ⟨by decide, by decide⟩

/-- Emptiness of an appended list. -/
theorem isEmpty_append_eq {α : Type} (l l' : List α) :
    (l ++ l').isEmpty = (l.isEmpty && l'.isEmpty) := by
  cases l <;> simp

/-- `filterMap` produces nothing iff every element maps to `none`. -/
theorem filterMap_isEmpty_eq_all {α β : Type} (f : α → Option β)
    (l : List α) :
    (l.filterMap f).isEmpty = l.all (fun a => (f a).isNone) := by
  induction l with
  | nil => rfl
  | cons a rest ih =>
    rw [List.filterMap_cons]
    cases h : f a with
    | none => simpa [h] using ih
    | some b => simp [h]

/-- C8 (amended): validate_blueprint returns valid = false exactly when
`what` is falsy or some builder task has a truthy `target_node` that is
missing from a non-empty loaded tree id set.  A missing referenced file
(without "create" in the intent), an empty `builder_tasks`, and missing
`acceptance.criteria` produce warnings only, never errors, and `valid`
is precisely the emptiness of the error list. -/
theorem c8_validate_blueprint_amended (content : BContent)
    (treeNodes : Option (List PyStr)) (fileExists : PyStr → Bool) :
    (validateBlueprint content treeNodes fileExists).valid =
      (pyTruthy content.what &&
        content.builder_tasks.all (fun bt =>
          match bt.target_node with
          | some t => !(pyTruthy t && !(treeNodes.getD []).isEmpty
              && !((treeNodes.getD []).contains t))
          | Option.none => true)) ∧
    (validateBlueprint content treeNodes fileExists).valid =
      (validateBlueprint content treeNodes fileExists).errors.isEmpty := by
  refine ⟨?_, rfl⟩
  show ((if !pyTruthy content.what then
      [pys "Missing 'what' — describe what this builds"] else [])
    ++ content.builder_tasks.filterMap (fun bt =>
      match bt.target_node with
      | Option.none => Option.none
      | some t =>
        if pyTruthy t && !(treeNodes.getD []).isEmpty
            && !((treeNodes.getD []).contains t) then
          some (pys "Task " ++ bt.task_id ++ pys ": target node '" ++ t
            ++ pys "' not found in tree")
        else Option.none)).isEmpty = _
  rw [isEmpty_append_eq, filterMap_isEmpty_eq_all]
  congr 1
  · cases h : pyTruthy content.what <;> simp [h]
  · apply congrArg
    funext bt
    cases bt.target_node with
    | none => rfl
    | some t =>
      show (if pyTruthy t && !(treeNodes.getD []).isEmpty
          && !((treeNodes.getD []).contains t) then
        some (pys "Task " ++ bt.task_id ++ pys ": target node '" ++ t
          ++ pys "' not found in tree") else Option.none).isNone = _
      cases hc : pyTruthy t && !(treeNodes.getD []).isEmpty
          && !((treeNodes.getD []).contains t) <;> simp_all
      cases hpt : pyTruthy t <;> simp_all
      by_cases he : treeNodes.getD [] = [] <;> simp_all

/-- C8 witness: the amended theorem instantiated at a content whose
builder task targets a node missing from the loaded tree. -/
theorem c8_validate_blueprint_amended_witness :
    (validateBlueprint c8ContentMissingFile (some [pys "other"])
      (fun _ => true)).valid = false := by
  rw [(c8_validate_blueprint_amended c8ContentMissingFile (some [pys "other"])
    (fun _ => true)).1]
  decide

/-- C4: interpreting the fence-violation program does NOT halt.
_exec_guard records `bone NOT: destroy_root` as an active constraint
(`_constraint_destroy_root`) and continues; the non-whitelisted call
returns a planned result; the run ends `status = "completed"` with
result `{"completed": True, "checkpoints": []}` — not
`{halted: true, reason}` as the claim requires.  `CodieHalt` is defined
at executor.py:854 with the docstring "Raised when a fence/bone check
fails and execution must stop", and _exec_guard's docstring says "If any
rule is violated, halt execution", but no code path raises it: the
`{"halted": True, ...}` branch of _execute_codie is unreachable. -/
theorem c4_fence_violation_does_not_halt :
    executeCodieParsed {} 32 c4Task c4Ast =
      CodieOutcome.done (pys "completed")
        (CVal.dict [(pys "completed", CVal.bool true),
                    (pys "checkpoints", CVal.list [])])
        []
        [pys "_entry", pys "_constraint_destroy_root",
         pys "_call_DESTROY_ROOT"]
        { risk := 3, blocked := false, reason := pys "Auto-approved",
          escalated_to := Option.none, level := pys "captain" } := by
  rfl

/-- combineStatuses yields "completed" iff every status is "completed",
provided no status is "failed". -/
theorem combineStatuses_eq_completed (sts : List PyStr)
    (h : sts.any (fun s => s = pys "failed") = false) :
    (combineStatuses sts = pys "completed") ↔
      sts.all (fun s => s = pys "completed") = true := by
  unfold combineStatuses
  by_cases ha : sts.all (fun s => s = pys "completed") = true
  · simp [ha]
  · have ha' : sts.all (fun s => s = pys "completed") = false := by
      revert ha; cases sts.all (fun s => s = pys "completed") <;> simp
    simp only [ha', Bool.false_eq_true, if_false, h, ha]
    simp
    decide

/-- combineStatuses never yields "completed" when some status is
"failed". -/
theorem combineStatuses_ne_completed (sts : List PyStr)
    (h : sts.any (fun s => s = pys "failed") = true) :
    ¬(combineStatuses sts = pys "completed") := by
  unfold combineStatuses
  have hnall : sts.all (fun s => s = pys "completed") = false := by
    rcases List.any_eq_true.mp h with ⟨c, hc, hcf⟩
    simp only [decide_eq_true_eq] at hcf
    apply (Bool.eq_false_iff).mpr
    intro hall
    have := List.all_eq_true.mp hall c hc
    simp only [decide_eq_true_eq] at this
    rw [hcf] at this
    exact absurd this (by decide)
  simp only [hnall, Bool.false_eq_true, if_false, h, if_true]
  split <;> decide

/-- The status a branch roll-up dict carries is "completed" exactly when
every child aggregate is "completed" (the block/escalate overrides need
a failed child and so cannot fire in that situation). -/
theorem mkBranchAgg_status_completed (fuel : Nat) (nodes : NodeDict)
    (nid : PyStr) (node : PNode) (crs : List Agg) :
    ((mkBranchAgg fuel nodes nid node crs).status = pys "completed") ↔
      crs.all (fun c => c.status = pys "completed") = true := by
  have hstat : (mkBranchAgg fuel nodes nid node crs).status =
      (if node.rules.any (fun r => r.action = pys "escalate") &&
          crs.any (fun r => r.status = pys "failed") then pys "escalated"
       else if node.rules.any (fun r => r.action = pys "block") &&
          crs.any (fun r => r.status = pys "failed") then pys "blocked"
       else combineStatuses (crs.map Agg.status)) := rfl
  rw [hstat]
  by_cases hf : crs.any (fun r => r.status = pys "failed") = true
  · have h1 : (crs.map Agg.status).any (fun s => s = pys "failed") = true := by
      simpa [List.any_map, Function.comp] using hf
    have hnc := combineStatuses_ne_completed _ h1
    have hnall : crs.all (fun c => c.status = pys "completed") = false := by
      rcases List.any_eq_true.mp hf with ⟨c, hc, hcf⟩
      simp only [decide_eq_true_eq] at hcf
      apply (Bool.eq_false_iff).mpr
      intro hall
      have := List.all_eq_true.mp hall c hc
      simp only [decide_eq_true_eq] at this
      rw [hcf] at this
      exact absurd this (by decide)
    rw [hnall]
    cases he : node.rules.any (fun r => r.action = pys "escalate") <;>
      cases hb : node.rules.any (fun r => r.action = pys "block") <;>
        simp [he, hb, hf, hnc] <;> decide
  · have hff : crs.any (fun r => r.status = pys "failed") = false := by
      revert hf; cases crs.any (fun r => r.status = pys "failed") <;> simp
    have h1 : (crs.map Agg.status).any (fun s => s = pys "failed") = false := by
      simpa [List.any_map, Function.comp] using hff
    simp only [hff, Bool.and_false, Bool.false_eq_true, if_false]
    rw [combineStatuses_eq_completed _ h1]
    simp [List.all_map, Function.comp]

/-- Child-list step of the aggregation/leaf correspondence: given the
per-node facts at one fuel level, the filtered child aggregates are
empty iff no descendant leaf produced a result, and they are all
"completed" iff every descendant result leaf is "completed". -/
theorem aggList_characterization (nodes : NodeDict)
    (rm : List (PyStr × ResultR)) (fuel : Nat)
    (ihA : ∀ nid, okFuel fuel nodes nid = true →
      (aggregateNode fuel nodes rm nid = Option.none ↔
        resultLeavesF fuel nodes rm nid = []))
    (ihB : ∀ nid, okFuel fuel nodes nid = true →
      ∀ a, aggregateNode fuel nodes rm nid = some a →
        (a.status = pys "completed" ↔
          ∀ r ∈ resultLeavesF fuel nodes rm nid, r.status = pys "completed")) :
    ∀ cl : List PyStr, (∀ c ∈ cl, okFuel fuel nodes c = true) →
      (((cl.map (fun c => aggregateNode fuel nodes rm c)).reduceOption = []) ↔
        cl.flatMap (fun c => resultLeavesF fuel nodes rm c) = []) ∧
      (((cl.map (fun c => aggregateNode fuel nodes rm c)).reduceOption.all
          (fun a => a.status = pys "completed") = true) ↔
        ∀ r ∈ cl.flatMap (fun c => resultLeavesF fuel nodes rm c),
          r.status = pys "completed") := by
  intro cl
  induction cl with
  | nil => intro _; simp
  | cons c cl ih =>
    intro hok
    have hokc : okFuel fuel nodes c = true := hok c (List.mem_cons_self c cl)
    have hokcl : ∀ x ∈ cl, okFuel fuel nodes x = true :=
      fun x hx => hok x (List.mem_cons_of_mem c hx)
    obtain ⟨ihE, ihAll⟩ := ih hokcl
    cases hag : aggregateNode fuel nodes rm c with
    | none =>
      have hl : resultLeavesF fuel nodes rm c = [] := (ihA c hokc).mp hag
      simp only [List.map_cons, hag, List.reduceOption_cons_of_none,
        List.flatMap_cons, hl, List.nil_append]
      exact ⟨ihE, ihAll⟩
    | some a =>
      have hne : resultLeavesF fuel nodes rm c ≠ [] := by
        intro h
        have := (ihA c hokc).mpr h
        rw [hag] at this
        cases this
      have hstat := ihB c hokc a hag
      simp only [List.map_cons, hag, List.reduceOption_cons_of_some,
        List.flatMap_cons]
      constructor
      · constructor
        · intro h; cases h
        · intro h
          exact absurd (List.append_eq_nil.mp h).1 hne
      · rw [List.all_cons]
        constructor
        · intro h
          have h1 := (Bool.and_eq_true _ _).mp h
          intro r hr
          rcases List.mem_append.mp hr with hr1 | hr2
          · have := hstat.mp (by simpa using h1.1)
            exact this r hr1
          · exact ihAll.mp h1.2 r hr2
        · intro h
          apply (Bool.and_eq_true _ _).mpr
          constructor
          · simpa using hstat.mpr
              (fun r hr => h r (List.mem_append.mpr (Or.inl hr)))
          · exact ihAll.mpr (fun r hr => h r (List.mem_append.mpr (Or.inr hr)))

/-- The aggregation/leaf correspondence: with enough fuel for the
subtree, a node's roll-up is absent iff no descendant leaf produced a
result, and when present it is "completed" iff every descendant result
leaf is "completed". -/
theorem aggregateNode_characterization (nodes : NodeDict)
    (rm : List (PyStr × ResultR)) :
    ∀ (fuel : Nat) (nid : PyStr), okFuel fuel nodes nid = true →
      (aggregateNode fuel nodes rm nid = Option.none ↔
        resultLeavesF fuel nodes rm nid = []) ∧
      (∀ a, aggregateNode fuel nodes rm nid = some a →
        (a.status = pys "completed" ↔
          ∀ r ∈ resultLeavesF fuel nodes rm nid,
            r.status = pys "completed")) := by
  intro fuel
  induction fuel with
  | zero => intro nid h; simp [okFuel] at h
  | succ fuel ih =>
    intro nid hok
    have ihA : ∀ n, okFuel fuel nodes n = true →
        (aggregateNode fuel nodes rm n = Option.none ↔
          resultLeavesF fuel nodes rm n = []) := fun n h => (ih n h).1
    have ihB : ∀ n, okFuel fuel nodes n = true →
        ∀ a, aggregateNode fuel nodes rm n = some a →
          (a.status = pys "completed" ↔
            ∀ r ∈ resultLeavesF fuel nodes rm n, r.status = pys "completed") :=
      fun n h => (ih n h).2
    unfold okFuel at hok
    unfold aggregateNode resultLeavesF
    cases hnd : pyDictGet nodes nid with
    | none => simp [hnd]
    | some node =>
      rw [hnd] at hok
      simp only [hnd]
      by_cases hleaf : node.children.isEmpty
      · simp only [hleaf, if_true]
        cases hr : pyDictGet rm nid with
        | none => simp
        | some r =>
          refine ⟨by simp, ?_⟩
          intro a ha
          simp only [Option.map] at ha
          injection ha with ha
          subst ha
          simp [Agg.status]
      · have hokcl : ∀ c ∈ node.children, okFuel fuel nodes c = true := by
          intro c hc
          exact List.all_eq_true.mp hok c hc
        obtain ⟨hE, hAll⟩ :=
          aggList_characterization nodes rm fuel ihA ihB node.children hokcl
        simp only [hleaf, if_false]
        set crs := (node.children.map
          (fun c => aggregateNode fuel nodes rm c)).reduceOption with hcrs
        by_cases hce : crs.isEmpty
        · have hce' : crs = [] := by
            revert hce; cases crs <;> simp
          simp only [hce, if_true]
          refine ⟨?_, ?_⟩
          · simp [hE.mp hce']
          · intro a ha; cases ha
        · have hce' : crs ≠ [] := by
            revert hce; cases crs <;> simp
          simp only [hce, if_false]
          constructor
          · constructor
            · intro h; cases h
            · intro h
              exact absurd (hE.mpr h) hce'
          · intro a ha
            injection ha with ha
            subst ha
            rw [mkBranchAgg_status_completed]
            exact hAll

/-- "failed" at a branch comes only from its direct children: some child
aggregate is "failed", none is "completed", and neither override rule
fired. -/
theorem mkBranchAgg_status_failed (fuel : Nat) (nodes : NodeDict)
    (nid : PyStr) (node : PNode) (crs : List Agg)
    (h : (mkBranchAgg fuel nodes nid node crs).status = pys "failed") :
    crs.any (fun c => c.status = pys "failed") = true ∧
    crs.any (fun c => c.status = pys "completed") = false := by
  have hstat : (mkBranchAgg fuel nodes nid node crs).status =
      (if node.rules.any (fun r => r.action = pys "escalate") &&
          crs.any (fun r => r.status = pys "failed") then pys "escalated"
       else if node.rules.any (fun r => r.action = pys "block") &&
          crs.any (fun r => r.status = pys "failed") then pys "blocked"
       else combineStatuses (crs.map Agg.status)) := rfl
  rw [hstat] at h
  by_cases h1 : (node.rules.any (fun r => r.action = pys "escalate") &&
      crs.any (fun r => r.status = pys "failed")) = true
  · rw [if_pos h1] at h
    exact absurd h (by decide)
  · rw [if_neg h1] at h
    by_cases h2 : (node.rules.any (fun r => r.action = pys "block") &&
        crs.any (fun r => r.status = pys "failed")) = true
    · rw [if_pos h2] at h
      exact absurd h (by decide)
    · rw [if_neg h2] at h
      unfold combineStatuses at h
      by_cases ha : (crs.map Agg.status).all (fun s => s = pys "completed") = true
      · rw [if_pos ha] at h
        exact absurd h (by decide)
      · rw [if_neg ha] at h
        by_cases hfm : (crs.map Agg.status).any (fun s => s = pys "failed") = true
        · rw [if_pos hfm] at h
          by_cases hcm : (crs.map Agg.status).any
              (fun s => s = pys "completed") = true
          · rw [if_pos hcm] at h
            exact absurd h (by decide)
          · refine ⟨by simpa [List.any_map, Function.comp] using hfm, ?_⟩
            have : (crs.map Agg.status).any
                (fun s => s = pys "completed") = false := by
              revert hcm
              cases (crs.map Agg.status).any (fun s => s = pys "completed") <;>
                simp
            simpa [List.any_map, Function.comp] using this
        · rw [if_neg hfm] at h
          exact absurd h (by decide)

/-- C5 (amended): with no-override in play, a branch roll-up is
"completed" iff at least one descendant leaf produced a result and every
such leaf has status exactly "completed" — a "planned" (dry-run) leaf
does not count toward completion; and a branch is "failed" exactly from
its direct children's aggregates (some child "failed", no child
"completed"), so a "completed" leaf deeper under a partial child does
not prevent "failed". -/
theorem c5_branch_status_amended (nodes : NodeDict)
    (rm : List (PyStr × ResultR)) (fuel : Nat) (nid : PyStr)
    (hok : okFuel fuel nodes nid = true) :
    ((aggregateNode fuel nodes rm nid).map Agg.status =
        some (pys "completed") ↔
      (resultLeavesF fuel nodes rm nid ≠ [] ∧
        ∀ r ∈ resultLeavesF fuel nodes rm nid,
          r.status = pys "completed")) ∧
    (∀ (fuel' : Nat) (nid' : PyStr) (node' : PNode) (crs : List Agg),
      (mkBranchAgg fuel' nodes nid' node' crs).status = pys "failed" →
      crs.any (fun c => c.status = pys "failed") = true ∧
      crs.any (fun c => c.status = pys "completed") = false) := by
  obtain ⟨hA, hB⟩ := aggregateNode_characterization nodes rm fuel nid hok
  refine ⟨?_, fun fuel' nid' node' crs h =>
    mkBranchAgg_status_failed fuel' nodes nid' node' crs h⟩
  constructor
  · intro h
    cases hag : aggregateNode fuel nodes rm nid with
    | none => rw [hag] at h; cases h
    | some a =>
      rw [hag] at h
      simp only [Option.map] at h
      injection h with h
      refine ⟨?_, (hB a hag).mp h⟩
      intro hl
      have := hA.mpr hl
      rw [hag] at this
      cases this
  · rintro ⟨hne, hall⟩
    cases hag : aggregateNode fuel nodes rm nid with
    | none => exact absurd (hA.mp hag) hne
    | some a =>
      have := (hB a hag).mpr hall
      simp [Option.map, this]

/-- C5 counterexample.  (1) A dry run whose only leaf is "planned"
aggregates the branch to "in_progress", not "completed" as the claim
states ("completed or planned").  (2) In the nested tree, the root
aggregates to "failed" although its descendant leaf `l1` produced a
"completed" result (the claim says "failed only if no descendant is
completed"): `d` rolls up to "partial", and the root sees no
direct-child "completed". -/
theorem c5_counterexample_planned_and_nested :
    (aggregateNode 3 c5NodesA c5RmA (pys "r")).map Agg.status =
      some (pys "in_progress") ∧
    (aggregateNode 4 c5NodesB c5RmB (pys "r")).map Agg.status =
      some (pys "failed") ∧
    (pyDictGet c5RmB (pys "l1")).map ResultR.status =
      some (pys "completed") := by
  exact ⟨by decide, by decide, by decide⟩

/-- C5 witness: the amended characterization instantiated on the
one-branch tree with a completed leaf. -/
theorem c5_branch_status_amended_witness :
    (aggregateNode 2 c5NodesA c5RmW (pys "r")).map Agg.status =
      some (pys "completed") := by
  exact ((c5_branch_status_amended c5NodesA c5RmW 2 (pys "r")
    (by decide)).1).mpr ⟨by decide, by decide⟩

/-- C9: when a branch node carries both a `block`-action rule and an
`escalate`-action rule and some child aggregate is "failed", the branch
status is "escalated" — the escalate override is applied after the
blocked override and wins. -/
theorem c9_escalate_overrides_block (fuel : Nat) (nodes : NodeDict)
    (rm : List (PyStr × ResultR)) (nid : PyStr) (node : PNode) (a : Agg)
    (hn : pyDictGet nodes nid = some node)
    (hbr : node.children.isEmpty = false)
    (_hb : node.rules.any (fun r => r.action = pys "block") = true)
    (he : node.rules.any (fun r => r.action = pys "escalate") = true)
    (hf : ((node.children.map (fun c => aggregateNode fuel nodes rm c)).reduceOption).any
      (fun c => c.status = pys "failed") = true)
    (ha : aggregateNode (fuel + 1) nodes rm nid = some a) :
    a.status = pys "escalated" := by
  unfold aggregateNode at ha
  rw [hn] at ha
  simp only [hbr, Bool.false_eq_true, if_false] at ha
  have hcrs : ((node.children.map
      (fun c => aggregateNode fuel nodes rm c)).reduceOption).isEmpty = false := by
    rcases List.any_eq_true.mp hf with ⟨c, hc, _⟩
    cases hx : (node.children.map
        (fun c => aggregateNode fuel nodes rm c)).reduceOption with
    | nil => rw [hx] at hc; cases hc
    | cons y ys => rfl
  rw [hcrs] at ha
  simp only [Bool.false_eq_true, if_false] at ha
  injection ha with ha
  subst ha
  have hstat : (mkBranchAgg (fuel + 1) nodes nid node
      ((node.children.map (fun c => aggregateNode fuel nodes rm c)).reduceOption)).status =
      (if node.rules.any (fun r => r.action = pys "escalate") &&
          ((node.children.map (fun c => aggregateNode fuel nodes rm c)).reduceOption).any
            (fun r => r.status = pys "failed") then pys "escalated"
       else if node.rules.any (fun r => r.action = pys "block") &&
          ((node.children.map (fun c => aggregateNode fuel nodes rm c)).reduceOption).any
            (fun r => r.status = pys "failed") then pys "blocked"
       else combineStatuses (((node.children.map
         (fun c => aggregateNode fuel nodes rm c)).reduceOption).map Agg.status)) := rfl
  rw [hstat, he, hf]
  simp

/-- C9 witness: block + escalate rules and one failed child roll the
branch up to "escalated". -/
theorem c9_escalate_overrides_block_witness :
    (aggregateNode 2 c9Nodes c9Rm (pys "r")).map Agg.status =
      some (pys "escalated") := by
  cases ha : aggregateNode 2 c9Nodes c9Rm (pys "r") with
  | none =>
    have h : (aggregateNode 2 c9Nodes c9Rm (pys "r")).isSome = true := by decide
    rw [ha] at h
    cases h
  | some a =>
    have := c9_escalate_overrides_block 1 c9Nodes c9Rm (pys "r")
      ((pyDictGet c9Nodes (pys "r")).getD {name := ∅, scale := ∅}) a
      (by decide) (by decide) (by decide) (by decide) (by decide) ha
    simp [this]

/-- C10: the roll-up covers only nodes that produced results — a leaf
with no result aggregates to nothing; a node aggregates to nothing iff
no descendant leaf produced a result (so an empty branch is omitted
entirely); and a branch's `children_count` / `completed` / `failed`
counters count only the children that yielded an aggregate, not all
children in the tree. -/
theorem c10_results_only_roll_up (nodes : NodeDict)
    (rm : List (PyStr × ResultR)) :
    (∀ (fuel : Nat) (nid : PyStr) (node : PNode),
      pyDictGet nodes nid = some node → node.children.isEmpty = true →
      pyDictGet rm nid = Option.none →
      aggregateNode (fuel + 1) nodes rm nid = Option.none) ∧
    (∀ (fuel : Nat) (nid : PyStr), okFuel fuel nodes nid = true →
      (aggregateNode fuel nodes rm nid = Option.none ↔
        resultLeavesF fuel nodes rm nid = [])) ∧
    (∀ (fuel : Nat) (nid : PyStr) (node : PNode) (crs : List Agg),
      (mkBranchAgg fuel nodes nid node crs).childrenCountI =
        some crs.length ∧
      (mkBranchAgg fuel nodes nid node crs).completedCntI =
        some (crs.countP (fun c => c.status = pys "completed")) ∧
      (mkBranchAgg fuel nodes nid node crs).failedCntI =
        some (crs.countP (fun c => c.status = pys "failed"))) := by
  refine ⟨?_, ?_, ?_⟩
  · intro fuel nid node hn hleaf hr
    unfold aggregateNode
    rw [hn]
    simp [hleaf, hr]
  · intro fuel nid hok
    exact (aggregateNode_characterization nodes rm fuel nid hok).1
  · intro fuel nid node crs
    refine ⟨rfl, ?_, ?_⟩
    · show some (List.countP (fun s => s = pys "completed")
        (crs.map Agg.status)) = _
      rw [List.countP_map]
      rfl
    · show some (List.countP (fun s => s = pys "failed")
        (crs.map Agg.status)) = _
      rw [List.countP_map]
      rfl

/-- C10 witness: leaf `y` (no result) aggregates to nothing, an empty
node id aggregates to nothing iff it has no result leaves, and the
branch counters count only the single result-bearing child. -/
theorem c10_results_only_roll_up_witness :
    aggregateNode 3 c10Nodes c10Rm (pys "y") = Option.none ∧
    (aggregateNode 3 c10Nodes c10Rm (pys "r") = Option.none ↔
      resultLeavesF 3 c10Nodes c10Rm (pys "r") = []) ∧
    (aggregateNode 3 c10Nodes c10Rm (pys "r")).map Agg.childrenCountI =
      some (some 1) := by
  refine ⟨?_, ?_, by decide⟩
  · exact (c10_results_only_roll_up c10Nodes c10Rm).1 2 (pys "y")
      { name := pys "y", scale := pys "captain", parent := some (pys "r") }
      (by decide) (by decide) (by decide)
  · exact (c10_results_only_roll_up c10Nodes c10Rm).2.1 3 (pys "r") (by decide)

/-- Insertion preserves length. -/
theorem length_insertLe {α : Type} (le : α → α → Bool) (x : α)
    (l : List α) : (insertLe le x l).length = l.length + 1 := by
  induction l with
  | nil => rfl
  | cons y ys ih =>
    unfold insertLe
    cases le y x <;> simp [ih]

/-- Insertion preserves `countP` up to the inserted element. -/
theorem countP_insertLe {α : Type} (p : α → Bool) (le : α → α → Bool)
    (x : α) (l : List α) :
    (insertLe le x l).countP p = l.countP p + (if p x then 1 else 0) := by
  induction l with
  | nil => cases h : p x <;> simp [insertLe, List.countP_cons, h]
  | cons y ys ih =>
    unfold insertLe
    cases le y x
    · simp only [Bool.false_eq_true, if_false]
      cases h : p x <;> simp [List.countP_cons, h]
    · simp only [if_true]
      rw [List.countP_cons, List.countP_cons, ih]
      omega

/-- The stable sort preserves length. -/
theorem length_insSort {α : Type} (le : α → α → Bool) (l : List α) :
    (insSort le l).length = l.length := by
  suffices h : ∀ acc, (l.foldl (fun acc x => insertLe le x acc) acc).length
      = l.length + acc.length by
    simpa using h []
  induction l with
  | nil => intro acc; simp
  | cons y ys ih =>
    intro acc
    simp only [List.foldl_cons]
    rw [ih, length_insertLe]
    simp only [List.length_cons]
    omega

/-- The stable sort preserves `countP`. -/
theorem countP_insSort {α : Type} (p : α → Bool) (le : α → α → Bool)
    (l : List α) : (insSort le l).countP p = l.countP p := by
  suffices h : ∀ acc, (l.foldl (fun acc x => insertLe le x acc) acc).countP p
      = l.countP p + acc.countP p by
    simpa using h []
  induction l with
  | nil => intro acc; simp
  | cons y ys ih =>
    intro acc
    simp only [List.foldl_cons]
    rw [ih, countP_insertLe, List.countP_cons]
    omega

/-- A filter partition: keeping `p` and keeping `¬p` covers the list. -/
theorem length_filter_partition {α : Type} (p : α → Bool) (l : List α) :
    (l.filter (fun a => !p a)).length + (l.filter p).length = l.length := by
  induction l with
  | nil => rfl
  | cons a t ih =>
    cases h : p a <;> simp [List.filter_cons, h] <;> omega

/-- When each element satisfies exactly one of `p`, `q`, the two counts
partition the list. -/
theorem countP_exclusive {α : Type} (p q : α → Bool) (l : List α)
    (h : ∀ a ∈ l, (p a = true ∧ q a = false) ∨ (p a = false ∧ q a = true)) :
    l.countP p + l.countP q = l.length := by
  induction l with
  | nil => rfl
  | cons a t ih =>
    have ht := ih (fun x hx => h x (List.mem_cons_of_mem a hx))
    rcases h a (List.mem_cons_self a t) with ⟨h1, h2⟩ | ⟨h1, h2⟩ <;>
      simp [List.countP_cons, h1, h2] <;> omega

/-- A live or dry leaf execution ends in exactly one of
completed/planned (counted as completed by VERIFY) or failed. -/
theorem executeLeaf_status_exclusive (env : RunEnv) (t : PTask) (d : Bool) :
    ((((executeLeaf env t d).status = pys "completed" : Bool) ||
        ((executeLeaf env t d).status = pys "planned" : Bool)) = true ∧
      (((executeLeaf env t d).status = pys "failed" : Bool)) = false) ∨
    ((((executeLeaf env t d).status = pys "completed" : Bool) ||
        ((executeLeaf env t d).status = pys "planned" : Bool)) = false ∧
      (((executeLeaf env t d).status = pys "failed" : Bool)) = true) := by
  unfold executeLeaf
  cases d
  · simp only [Bool.false_eq_true, if_false]
    cases hx : env.exec t with
    | ok out => left; constructor <;> rfl
    | error e =>
      cases hesc : pyTruthyOpt t.escalation.target <;>
        simp only [Bool.false_eq_true, if_false, if_true] <;>
      · right; constructor <;> rfl
  · left
    constructor <;> rfl

/-- A blocked synthesis result carries status "blocked". -/
theorem mkBlockedResult_status (env : RunEnv) (t : PTask) (a : Approval) :
    (mkBlockedResult env t a).status = pys "blocked" := rfl

/-- The EXECUTE ordering never changes how many tasks run. -/
theorem length_orderForExec (graph : Option CrateGraph) (nodes : NodeDict)
    (approved : List (PTask × Approval)) :
    (orderForExec graph nodes approved).length = approved.length := by
  cases graph with
  | none => rfl
  | some g => exact length_insSort _ _

/-- The SHIP-phase counters: `tasks_decomposed` is the PLAN count, the
REVIEW partition covers it, `tasks_executed` counts ALL terminal results
(blocked ones included), and completed/failed/blocked partition the
decomposed tasks. -/
theorem runShip_counters (fuel : Nat) (env : RunEnv) (nodes : NodeDict)
    (treePath : PyStr) (title : Option PyStr) (intent : PyStr)
    (targetId : Option PyStr) (dryRun : Bool) (graph : Option CrateGraph)
    (tasks : List PTask) :
    (runShip fuel env nodes treePath title intent targetId dryRun graph
      tasks).tasks_decomposed = tasks.length ∧
    (runShip fuel env nodes treePath title intent targetId dryRun graph
      tasks).tasks_approved +
      (runShip fuel env nodes treePath title intent targetId dryRun graph
        tasks).tasks_blocked = tasks.length ∧
    (runShip fuel env nodes treePath title intent targetId dryRun graph
      tasks).tasks_executed = tasks.length ∧
    (runShip fuel env nodes treePath title intent targetId dryRun graph
      tasks).tasks_completed +
      (runShip fuel env nodes treePath title intent targetId dryRun graph
        tasks).tasks_failed +
      (runShip fuel env nodes treePath title intent targetId dryRun graph
        tasks).tasks_blocked = tasks.length := by
  have hA : ((tasks.map (fun t => (t, checkApproval t))).filter
        (fun p => !p.2.blocked)).length +
      ((tasks.map (fun t => (t, checkApproval t))).filter
        (fun p => p.2.blocked)).length = tasks.length := by
    have := length_filter_partition
      (fun p : PTask × Approval => p.2.blocked)
      (tasks.map (fun t => (t, checkApproval t)))
    simpa using this
  refine ⟨rfl, hA, ?_, ?_⟩
  · show ((orderForExec graph nodes ((tasks.map
        (fun t => (t, checkApproval t))).filter (fun p => !p.2.blocked))).map
          (fun p => executeLeaf env p.1 dryRun) ++
        ((tasks.map (fun t => (t, checkApproval t))).filter
          (fun p => p.2.blocked)).map
          (fun p => mkBlockedResult env p.1 p.2)).length = tasks.length
    rw [List.length_append, List.length_map, List.length_map,
      length_orderForExec]
    exact hA
  · show ((orderForExec graph nodes ((tasks.map
        (fun t => (t, checkApproval t))).filter (fun p => !p.2.blocked))).map
          (fun p => executeLeaf env p.1 dryRun) ++
        ((tasks.map (fun t => (t, checkApproval t))).filter
          (fun p => p.2.blocked)).map
          (fun p => mkBlockedResult env p.1 p.2)).countP
        (fun r => r.status = pys "completed" || r.status = pys "planned") +
      ((orderForExec graph nodes ((tasks.map
        (fun t => (t, checkApproval t))).filter (fun p => !p.2.blocked))).map
          (fun p => executeLeaf env p.1 dryRun) ++
        ((tasks.map (fun t => (t, checkApproval t))).filter
          (fun p => p.2.blocked)).map
          (fun p => mkBlockedResult env p.1 p.2)).countP
        (fun r => r.status = pys "failed") +
      ((tasks.map (fun t => (t, checkApproval t))).filter
        (fun p => p.2.blocked)).length = tasks.length
    rw [List.countP_append, List.countP_append]
    have hPB : (((tasks.map (fun t => (t, checkApproval t))).filter
        (fun p => p.2.blocked)).map
          (fun p => mkBlockedResult env p.1 p.2)).countP
        (fun r => r.status = pys "completed" || r.status = pys "planned")
        = 0 := by
      rw [List.countP_map]
      apply List.countP_eq_zero.mpr
      intro a _
      show ¬((decide ((mkBlockedResult env a.1 a.2).status = pys "completed")
        || decide ((mkBlockedResult env a.1 a.2).status = pys "planned"))
          = true)
      rw [mkBlockedResult_status]
      decide
    have hFB : (((tasks.map (fun t => (t, checkApproval t))).filter
        (fun p => p.2.blocked)).map
          (fun p => mkBlockedResult env p.1 p.2)).countP
        (fun r => r.status = pys "failed") = 0 := by
      rw [List.countP_map]
      apply List.countP_eq_zero.mpr
      intro a _
      show ¬(decide ((mkBlockedResult env a.1 a.2).status = pys "failed")
        = true)
      rw [mkBlockedResult_status]
      decide
    rw [hPB, hFB]
    have hEx : ((orderForExec graph nodes ((tasks.map
        (fun t => (t, checkApproval t))).filter (fun p => !p.2.blocked))).map
          (fun p => executeLeaf env p.1 dryRun)).countP
        (fun r => r.status = pys "completed" || r.status = pys "planned") +
        ((orderForExec graph nodes ((tasks.map
        (fun t => (t, checkApproval t))).filter (fun p => !p.2.blocked))).map
          (fun p => executeLeaf env p.1 dryRun)).countP
        (fun r => r.status = pys "failed") =
        ((orderForExec graph nodes ((tasks.map
        (fun t => (t, checkApproval t))).filter (fun p => !p.2.blocked))).map
          (fun p => executeLeaf env p.1 dryRun)).length := by
      apply countP_exclusive
      intro r hr
      rcases List.mem_map.mp hr with ⟨p, _, rfl⟩
      exact executeLeaf_status_exclusive env p.1 dryRun
    rw [List.length_map, length_orderForExec] at hEx
    omega

/-- C1 (amended): for every run that decomposes at least one task, the
trace satisfies `tasks_decomposed = tasks_approved + tasks_blocked` and
`tasks_completed + tasks_failed + tasks_blocked = tasks_decomposed`,
while `tasks_executed = tasks_approved + tasks_blocked =
tasks_decomposed`: the trace counts every terminal result as executed,
blocked results included (engine.py:636 sets `tasks_executed:
len(results)` after the blocked synthesis is appended). -/
theorem c1_trace_counters_amended (fuel : Nat) (env : RunEnv)
    (doc : TreeDoc) (treePath : PyStr) (intent : PyStr)
    (targetId : Option PyStr) (dryRun : Bool) (graph : Option CrateGraph)
    (tr : Trace)
    (h : run fuel env doc treePath intent targetId dryRun graph =
      .traced tr) :
    1 ≤ tr.tasks_decomposed ∧
    tr.tasks_decomposed = tr.tasks_approved + tr.tasks_blocked ∧
    tr.tasks_executed = tr.tasks_approved + tr.tasks_blocked ∧
    tr.tasks_completed + tr.tasks_failed + tr.tasks_blocked =
      tr.tasks_decomposed := by
  unfold run at h
  by_cases he : (planTasks fuel (loadTree doc).1 intent targetId
      graph).isEmpty = true
  · rw [if_pos he] at h
    cases h
  · rw [if_neg he] at h
    injection h with h
    subst h
    obtain ⟨h1, h2, h3, h4⟩ := runShip_counters fuel env (loadTree doc).1
      treePath (loadTree doc).2.1 intent targetId dryRun graph
      (planTasks fuel (loadTree doc).1 intent targetId graph)
    have hpos : 1 ≤ (planTasks fuel (loadTree doc).1 intent targetId
        graph).length := by
      cases hx : planTasks fuel (loadTree doc).1 intent targetId graph with
      | nil => rw [hx] at he; exact absurd rfl he
      | cons a l => simp [hx]
    rw [h1, h2, h3, h4]
    omega

/-- C1 counterexample: the intent "wipe sessions" reaches the single
department leaf, which scores risk 9 and is blocked.  The trace then
has `tasks_approved = 0` and `tasks_blocked = 1` but `tasks_executed =
1`: the blocked task is counted as executed, contradicting
`tasks_executed = tasks_approved`. -/
theorem c1_counterexample_blocked_counted_executed :
    (traceOf (run 8 c1Env c1Doc (pys "tree.json") (pys "wipe sessions")
        Option.none true Option.none)).map
      (fun tr => (tr.tasks_executed, tr.tasks_approved, tr.tasks_blocked,
        tr.tasks_decomposed)) = some (1, 0, 1, 1) := by
  decide

/-- C1 witness: the amended counter identities at the concrete dry
run. -/
theorem c1_trace_counters_amended_witness :
    1 ≤ c1WitTrace.tasks_decomposed ∧
    c1WitTrace.tasks_decomposed =
      c1WitTrace.tasks_approved + c1WitTrace.tasks_blocked ∧
    c1WitTrace.tasks_executed =
      c1WitTrace.tasks_approved + c1WitTrace.tasks_blocked ∧
    c1WitTrace.tasks_completed + c1WitTrace.tasks_failed +
      c1WitTrace.tasks_blocked = c1WitTrace.tasks_decomposed := by
  exact c1_trace_counters_amended 8 c1Env c1Doc (pys "tree.json")
    (pys "sessions") Option.none true Option.none c1WitTrace rfl

/-- dropWhile runs through a prefix that satisfies the predicate. -/
theorem dropWhile_append_all {α : Type} (p : α → Bool) (w t : List α)
    (h : ∀ c ∈ w, p c = true) :
    List.dropWhile p (w ++ t) = List.dropWhile p t := by
  induction w with
  | nil => rfl
  | cons a ws ih =>
    have ha := h a (List.mem_cons_self a ws)
    simp only [List.cons_append, List.dropWhile_cons, ha, if_true]
    exact ih (fun c hc => h c (List.mem_cons_of_mem a hc))

/-- dropWhile over an append when the left part survives. -/
theorem dropWhile_append_of_ne_nil {α : Type} (p : α → Bool)
    (s t : List α) (h : List.dropWhile p s ≠ []) :
    List.dropWhile p (s ++ t) = List.dropWhile p s ++ t := by
  induction s with
  | nil => exact absurd rfl h
  | cons a ss ih =>
    cases ha : p a
    · simp [List.dropWhile_cons, ha]
    · simp only [List.cons_append, List.dropWhile_cons, ha, if_true] at h ⊢
      exact ih h

/-- If everything satisfies the predicate, dropWhile empties the list. -/
theorem dropWhile_eq_nil_of_all {α : Type} (p : α → Bool) (l : List α)
    (h : ∀ c ∈ l, p c = true) : List.dropWhile p l = [] := by
  induction l with
  | nil => rfl
  | cons a t ih =>
    simp only [List.dropWhile_cons, h a (List.mem_cons_self a t), if_true]
    exact ih (fun c hc => h c (List.mem_cons_of_mem a hc))

/-- If dropWhile empties the list, everything satisfied the predicate. -/
theorem all_of_dropWhile_eq_nil {α : Type} (p : α → Bool) (l : List α)
    (h : List.dropWhile p l = []) : ∀ c ∈ l, p c = true := by
  induction l with
  | nil => intro c hc; cases hc
  | cons a t ih =>
    intro c hc
    by_cases ha : p a = true
    · simp only [List.dropWhile_cons, ha, if_true] at h
      rcases List.mem_cons.mp hc with rfl | hct
      · exact ha
      · exact ih h c hct
    · exfalso
      rw [List.dropWhile_cons, if_neg ha] at h
      exact List.noConfusion h

/-- dropWhile commutes with a map that preserves the predicate. -/
theorem dropWhile_map_pres {α : Type} (f : α → α) (p : α → Bool)
    (l : List α) (h : ∀ c, p (f c) = p c) :
    List.dropWhile p (l.map f) = (List.dropWhile p l).map f := by
  induction l with
  | nil => rfl
  | cons a t ih =>
    simp only [List.map_cons, List.dropWhile_cons, h a]
    cases hp : p a <;> simp [hp, ih]

/-- Appending surrounding whitespace does not change `strip`. -/
theorem pyStrip_append_space (s w : PyStr)
    (hw : ∀ c ∈ w, pyIsSpace c = true) : pyStrip (s ++ w) = pyStrip s := by
  unfold pyStrip
  by_cases hs : List.dropWhile pyIsSpace s = []
  · have hsw : List.dropWhile pyIsSpace ((s : List Nat) ++ w) = [] := by
      apply dropWhile_eq_nil_of_all
      intro c hc
      rcases List.mem_append.mp hc with h1 | h2
      · exact all_of_dropWhile_eq_nil _ _ hs c h1
      · exact hw c h2
    show ((List.dropWhile pyIsSpace ((s : List Nat) ++ w)).reverse.dropWhile
      pyIsSpace).reverse = _
    rw [hsw, hs]
  · show ((List.dropWhile pyIsSpace ((s : List Nat) ++ w)).reverse.dropWhile
      pyIsSpace).reverse = _
    rw [dropWhile_append_of_ne_nil _ _ _ hs, List.reverse_append,
      dropWhile_append_all _ _ _
        (fun c hc => hw c (List.mem_reverse.mp hc))]

/-- On ASCII code points the upper map is the simple per-point map. -/
theorem pyUpperChar_ascii (c : Nat) (h : c < 128) :
    pyUpperChar c = [upAscii c] := by
  unfold pyUpperChar upAscii
  by_cases h1 : 97 ≤ c ∧ c ≤ 122
  · rw [if_pos h1, if_pos h1]
  · rw [if_neg h1, if_neg h1, if_neg (show ¬c = 181 from by omega),
      if_neg (show ¬c = 223 from by omega),
      if_neg (show ¬((224 ≤ c ∧ c ≤ 254) ∧ c ≠ 247) from by omega),
      if_neg (show ¬c = 255 from by omega)]

/-- Upper-casing an all-ASCII string maps `upAscii` over it. -/
theorem pyUpper_ascii (s : List Nat) (h : ∀ c ∈ s, c < 128) :
    pyUpper s = s.map upAscii := by
  induction s with
  | nil => rfl
  | cons a t ih =>
    show List.append (pyUpperChar a) (pyUpper t) = upAscii a :: t.map upAscii
    rw [pyUpperChar_ascii a (h a (List.mem_cons_self a t)),
      ih (fun c hc => h c (List.mem_cons_of_mem a hc))]
    rfl

/-- `upAscii` does not change whether a code point is whitespace. -/
theorem pyIsSpace_upAscii (c : Nat) :
    pyIsSpace (upAscii c) = pyIsSpace c := by
  by_cases h : 97 ≤ c ∧ c ≤ 122
  · have e : upAscii c = c - 32 := by unfold upAscii; rw [if_pos h]
    rw [e]
    have h1 : pyIsSpace (c - 32) = false := by
      simp only [pyIsSpace, Bool.or_eq_false_iff, decide_eq_false_iff_not]
      omega
    have h2 : pyIsSpace c = false := by
      simp only [pyIsSpace, Bool.or_eq_false_iff, decide_eq_false_iff_not]
      omega
    rw [h1, h2]
  · have e : upAscii c = c := by unfold upAscii; rw [if_neg h]
    rw [e]

/-- ASCII case round trip: lower after the ASCII upper map is lower. -/
theorem pyLowerChar_upAscii (c : Nat) :
    pyLowerChar (upAscii c) = pyLowerChar c := by
  by_cases h : 97 ≤ c ∧ c ≤ 122
  · have e : upAscii c = c - 32 := by unfold upAscii; rw [if_pos h]
    rw [e]
    unfold pyLowerChar
    rw [if_pos (show 65 ≤ c - 32 ∧ c - 32 ≤ 90 from by omega),
      if_neg (show ¬(65 ≤ c ∧ c ≤ 90) from by omega),
      if_neg (show ¬((192 ≤ c ∧ c ≤ 222) ∧ c ≠ 215) from by omega),
      if_neg (show ¬c = 376 from by omega),
      if_neg (show ¬c = 924 from by omega)]
    omega
  · have e : upAscii c = c := by unfold upAscii; rw [if_neg h]
    rw [e]

/-- `strip` commutes with mapping the ASCII upper map. -/
theorem pyStrip_map_upAscii (s : List Nat) :
    pyStrip (s.map upAscii) = (pyStrip s : List Nat).map upAscii := by
  unfold pyStrip
  rw [dropWhile_map_pres _ _ _ pyIsSpace_upAscii, ← List.map_reverse,
    dropWhile_map_pres _ _ _ pyIsSpace_upAscii, ← List.map_reverse]

/-- Lower-casing collapses the ASCII upper map. -/
theorem pyLower_map_upAscii (x : List Nat) :
    pyLower (x.map upAscii) = pyLower x := by
  unfold pyLower
  rw [List.map_map]
  exact List.map_congr_left (fun a _ => pyLowerChar_upAscii a)

/-- C7 counterexample: case invariance of the intent hash fails off
ASCII.  Python's full case mapping sends ß (U+00DF) to SS, and a later
`.lower()` gives back ss, not ß (Python leaves ß unchanged on lower),
so _hash_intent hashes the UTF-8 of "ss" on one side and of "ß" on the
other — two different byte strings with different digests. -/
theorem c7_counterexample_sharp_s :
    hashIntent (pyUpper (pys "ß")) ≠ hashIntent (pys "ß") := by
  decide

/-- C7 (amended): the intent hash is invariant under appended
whitespace for every intent — _hash_intent strips before hashing — and
invariant under upper-casing for intents made of ASCII code points,
where lower-casing collapses the upper map; off ASCII the case conjunct
fails, as the ß counterexample shows. -/
theorem c7_hash_intent_invariance_amended (s w : PyStr)
    (hw : ∀ c ∈ w, pyIsSpace c = true) :
    hashIntent (s ++ w) = hashIntent s ∧
    ((∀ c ∈ (s : List Nat), c < 128) →
      hashIntent (pyUpper s) = hashIntent s) := by
  constructor
  · unfold hashIntent
    rw [pyStrip_append_space s w hw]
  · intro hs
    unfold hashIntent
    rw [pyUpper_ascii s hs, pyStrip_map_upAscii, pyLower_map_upAscii]

/-- C7 amended witness: a concrete ASCII intent, its trailing-space
variant and its upper-casing all hash alike. -/
theorem c7_hash_intent_invariance_amended_witness :
    hashIntent (pys "Deploy the API" ++ pys "  ") =
      hashIntent (pys "Deploy the API") ∧
    hashIntent (pyUpper (pys "Deploy the API")) =
      hashIntent (pys "Deploy the API") := by
  have h := c7_hash_intent_invariance_amended (pys "Deploy the API")
    (pys "  ") (by decide)
  exact ⟨h.1, h.2 (by decide)⟩
